import Mathlib

-- Verification of dbsake.core.mysql.frm.mysqltypes: formatting of MySQL
-- column types and decoding of serialized column default values.
-- The Python module is shallowly embedded below. Byte strings are
-- List Nat with entries < 256; machine integers are Nat/Int with
-- explicit reductions; fallible code returns Except.

set_option maxRecDepth 4000
set_option linter.unusedVariables false

/-- Modelled from the spec: the error taxonomy of the decode engine.
Python exception classes are represented by constructors: LookupError
carries its message; NotImplementedError, IndexError, struct.error,
ValueError, UnicodeDecodeError and TypeError are the other failure modes
the module can raise. -/
inductive Err where
  | notImplemented
  | lookupError (msg : String)
  | valueError (msg : String)
  | indexError
  | structError
  | unicodeError
  | typeError
deriving DecidableEq

/-- Modelled from the spec: the `unireg_check` enumeration from the
constants module (not under src), marking special column roles:
auto-increment, blob-with-suppressed-default, the three timestamp
auto-update variants, and none. -/
inductive Utype where
  | NONE
  | NEXT_NUMBER
  | BLOB_FIELD
  | TIMESTAMP_DN_FIELD
  | TIMESTAMP_UN_FIELD
  | TIMESTAMP_DNUN_FIELD
deriving DecidableEq

/-- The MySQLType codes the decode engine dispatches on. FLOAT and DOUBLE
are omitted from the embedding: their decoders format IEEE-754 values
with printf %g semantics, which is outside this shallow embedding. -/
inductive TypeCode where
  | tiny | short | int24 | long | longlong
  | decimal | newdecimal
  | year | date | newdate
  | time | time2 | timestamp | timestamp2 | datetime | datetime2
  | varchar | var_string | string
  | enum | set | bit
  | tiny_blob | blob | medium_blob | long_blob
  | geometry | null
deriving DecidableEq

/-- Modelled from the spec: the per-column flag bit-set from the constants
module (not under src). The nullable, has-no-stored-default, signed-numeric
and zero-fill bits are carried as Booleans; the embedded decimal-scale
bit field ((flags >> DEC_SHIFT) & MAX_DEC) is carried directly as the
`decimals` field. -/
structure FieldFlags where
  MAYBE_NULL : Bool
  NO_DEFAULT : Bool
  DECIMAL : Bool
  ZEROFILL : Bool
  decimals : Nat
deriving DecidableEq

/-- Modelled from the spec: the external charset descriptor (name,
collation, default-collation flag, max bytes per character, and a
text-decode routine from raw bytes to text). -/
structure Charset where
  name : String
  collation : String
  is_default : Bool
  maxlen : Nat
  decode : List Nat → String

/-- The per-column context handed to the formatter and decoder. Mirrors
the Python context object: type code, flags, unireg_check, packed length,
charset, the table default charset (for override comparisons, compared
by charset name), enum/set labels, the geometry subtype name, and the
two shared cursors (null-bit offset and the shared null bitmap). -/
structure Ctx where
  type_code : TypeCode
  flags : FieldFlags
  unireg_check : Utype
  length : Nat
  charset : Charset
  tableCharset : Charset
  labels : List String
  subtypeName : String
  null_bit : Nat
  null_map : List Nat

/-- Modelled from the spec: the primitive byte-buffer reader (the util
module, not under src): an ordered byte sequence with a monotonically
advancing read cursor. -/
structure ByteReader where
  data : List Nat
  pos : Nat
deriving DecidableEq

/-- Modelled from the spec: raw N-byte slice read, advancing the cursor;
reading past the end is a fatal buffer exhaustion. -/
def ByteReader.read (r : ByteReader) (n : Nat) : Except Err (List Nat × ByteReader) :=
  if r.pos + n ≤ r.data.length then
    Except.ok ((r.data.drop r.pos).take n, ⟨r.data, r.pos + n⟩)
  else
    Except.error Err.structError

/-- Big-endian value of a byte list. -/
def beNat (bs : List Nat) : Nat :=
  bs.foldl (fun a b => a * 256 + b) 0

/-- Modelled from the spec: fixed-width big-endian unsigned read. -/
def ByteReader.uintBE (r : ByteReader) (n : Nat) : Except Err (Nat × ByteReader) :=
  (r.read n).map (fun p => (beNat p.1, p.2))

/-- Modelled from the spec: fixed-width little-endian unsigned read; the
default endianness of the reader is little-endian (the module docstring
example decodes 2a 00 00 00 as 42). -/
def ByteReader.uintLE (r : ByteReader) (n : Nat) : Except Err (Nat × ByteReader) :=
  (r.read n).map (fun p => (beNat p.1.reverse, p.2))

/-- Two's-complement reinterpretation of an unsigned w-byte value. -/
def toSigned (w : Nat) (v : Nat) : Int :=
  if v < 2 ^ (8 * w - 1) then (v : Int) else (v : Int) - 2 ^ (8 * w)

/-- Modelled from the spec: fixed-width big-endian signed read. -/
def ByteReader.sintBE (r : ByteReader) (n : Nat) : Except Err (Int × ByteReader) :=
  (r.uintBE n).map (fun p => (toSigned n p.1, p.2))

/-- Modelled from the spec: fixed-width little-endian signed read. -/
def ByteReader.sintLE (r : ByteReader) (n : Nat) : Except Err (Int × ByteReader) :=
  (r.uintLE n).map (fun p => (toSigned n p.1, p.2))

-- String helpers modelling the Python string operations used by the
-- decoders.

/-- The single-quote character used to wrap SQL literals. -/
def sqlQuote : Char := Char.ofNat 39

/-- Wrap a string in single quotes, the Python "%s" % value pattern
between quote characters. -/
def quoteWrap (s : String) : String :=
  String.singleton sqlQuote ++ s ++ String.singleton sqlQuote

/-- Python repr of a quote-free literal string: wraps in single quotes.
The decimal decoder only ever formats strings of digits, dot and minus,
for which repr adds no escapes. -/
def pyRepr (s : String) : String :=
  quoteWrap s

/-- Decimal digit string of a natural number, fuel-structured so that it
reduces by kernel evaluation; the fuel is the number itself. -/
def natStrAux : Nat → Nat → String
  | 0, _ => ""
  | fuel + 1, n =>
    if n = 0 then "" else natStrAux fuel (n / 10) ++ String.singleton (Nat.digitChar (n % 10))

/-- Python str of a nonnegative integer. -/
def natStr (n : Nat) : String :=
  if n = 0 then "0" else natStrAux n n

/-- Python str of an integer (minus sign for negatives). -/
def intStr (i : Int) : String :=
  if i < 0 then "-" ++ natStr i.natAbs else natStr i.toNat

/-- Binary digit string of a natural number, the Python bin(v)[2:]. -/
def natBinAux : Nat → Nat → String
  | 0, _ => ""
  | fuel + 1, n =>
    if n = 0 then "" else natBinAux fuel (n / 2) ++ String.singleton (Nat.digitChar (n % 2))

/-- Python bin(n)[2:] for nonnegative n. -/
def natBin (n : Nat) : String :=
  if n = 0 then "0" else natBinAux n n

/-- Python str.zfill: left-pad with zero digits to the requested width,
keeping a leading sign in place. -/
def zfillPy (width : Nat) (s : String) : String :=
  match s.toList with
  | [] => String.mk (List.replicate width '0')
  | c :: rest =>
    if c = '-' ∨ c = '+' then
      String.mk (c :: (List.replicate (width - (rest.length + 1)) '0' ++ rest))
    else
      String.mk (List.replicate (width - (rest.length + 1)) '0' ++ (c :: rest))

/-- Python s.lstrip of zero characters. -/
def lstripZero (s : String) : String :=
  String.mk (s.toList.dropWhile (fun c => c = '0'))

/-- Python s.rstrip of space characters. -/
def rstripSpace (s : String) : String :=
  String.mk ((s.toList.reverse.dropWhile (fun c => c = ' ')).reverse)

/-- Python left-justified space padding, the format spec of a plain
width: right-align in a field of the given width padded with spaces. -/
def padSpace (width : Nat) (s : String) : String :=
  String.mk (List.replicate (width - s.length) ' ' ++ s.toList)

/-- Python bytes.decode with the ascii codec and errors="replace": bytes
below 128 decode to themselves, others to U+FFFD. -/
def asciiDecodeReplace (bs : List Nat) : String :=
  String.mk (bs.map (fun b => if b < 128 then Char.ofNat b else Char.ofNat 65533))

/-- Python bytes.decode with the strict ascii codec. -/
def asciiDecodeStrict (bs : List Nat) : Except Err String :=
  if bs.all (fun b => b < 128) then Except.ok (String.mk (bs.map Char.ofNat))
  else Except.error Err.unicodeError

/-- Python sequence indexing: nonnegative indexes from the front,
negative indexes from the back, out of range is an IndexError (none). -/
def pyIndex {α : Type} (l : List α) (i : Int) : Option α :=
  if 0 ≤ i then l.get? i.toNat
  else if 0 ≤ (l.length : Int) + i then l.get? ((l.length : Int) + i).toNat
  else none

/-- Python bytes.replace of the single byte 0 with the two bytes
backslash zero, as used for binary-charset string defaults. -/
def pyReplaceNulBytes : List Nat → List Nat
  | [] => []
  | b :: rest => (if b = 0 then [92, 48] else [b]) ++ pyReplaceNulBytes rest

-- Constants from the source module (and the two display-width constants
-- from the external constants module).

def DIG_PER_DEC1 : Nat := 9

def DIGITS_TO_BYTES : List Nat := [0, 1, 1, 2, 2, 3, 3, 4, 4, 4]

/-- Modelled from the spec: the fixed display width of a TIME value from
the constants module (not under src); fractional scale is recovered as
length - MAX_TIME_WIDTH - 1. -/
def MAX_TIME_WIDTH : Nat := 10

/-- Modelled from the spec: the fixed display width of a DATETIME or
TIMESTAMP value from the constants module (not under src); fractional
scale is recovered as length - MAX_DATETIME_WIDTH - 1. -/
def MAX_DATETIME_WIDTH : Nat := 19

def TIME_MAX_HOUR : Nat := 838

def TIME_MAX_MINUTE : Nat := 59

def TIME_MAX_SECOND : Nat := 59

def TIME_MAX_SECOND_PART : Nat := 999999

def TIME_SECOND_PART_FACTOR : Nat := TIME_MAX_SECOND_PART + 1

def TIME_SECOND_PART_DIGITS : Nat := 6

def TIME_MAX_VALUE_SECONDS : Nat :=
  TIME_MAX_HOUR * 3600 + TIME_MAX_MINUTE * 60 + TIME_MAX_SECOND

def TIME_HIRES_BYTES : List Nat := [3, 4, 4, 5, 5, 5, 6]

/-- The decimal-scale bit field of the pack flags; the shifted field is
carried directly in the embedded flags (see FieldFlags). -/
def f_decimals (flags : FieldFlags) : Nat := flags.decimals

def f_is_dec (flags : FieldFlags) : Bool := flags.DECIMAL

def f_is_zerofill (flags : FieldFlags) : Bool := flags.ZEROFILL

-- The packed-decimal codec.

/-- Split a byte list into consecutive 4-byte groups (struct unpack of
len/4 big-endian 32-bit words); a trailing fragment shorter than 4 bytes
is never present after the padding step of the caller. -/
def chunk4 : List Nat → List (List Nat)
  | a :: b :: c :: d :: rest => [a, b, c, d] :: chunk4 rest
  | _ => []

/-- Decode the decimal digits from a set of bytes: pad a trailing
partial group on its high side (0x00, or 0xff when inverting), unpack
big-endian signed 32-bit groups, bitwise-invert each group when
requested, and join the decimal renderings. -/
def _decode_decimal (data : List Nat) (invert : Bool) : String :=
  let modcheck := data.length % 4
  let data2 :=
    if modcheck ≠ 0 then
      let pad := 4 - modcheck
      let padChar := if invert then 255 else 0
      let whole := data.take (data.length - modcheck)
      let frac := List.replicate pad padChar ++ data.drop (data.length - modcheck)
      whole ++ frac
    else data
  let groups := (chunk4 data2).map (fun g => toSigned 4 (beNat g))
  let groups2 := if invert then groups.map (fun i => -i - 1) else groups
  String.join (groups2.map (fun i => intStr i))

/-- Unpack a pre-5.0 DECIMAL default: raw ascii digit text of the
declared length. -/
def unpack_type_decimal (defaults : ByteReader) (context : Ctx) :
    Except Err (String × ByteReader) := do
  let (bs, d1) ← defaults.read context.length
  let s ← asciiDecodeStrict bs
  return (quoteWrap s, d1)

/-- Unpack a MySQL 5.0+ NEWDECIMAL default: digits packed nine to a
4-byte big-endian word, sign in the top bit of the first byte (always
xor-ed with 0x80), negative groups stored one's-complemented. -/
def unpack_type_newdecimal (defaults : ByteReader) (context : Ctx) :
    Except Err (String × ByteReader) := do
  let scale := f_decimals context.flags
  let precision0 := context.length
  let precision1 := if scale ≠ 0 then precision0 - 1 else precision0
  let precision := if precision1 ≠ 0 then precision1 - 1 else precision1
  let int_length :=
    ((precision - scale) / 9) * 4 + DIGITS_TO_BYTES.getD ((precision - scale) % 9) 0
  let frac_length := (scale / 9) * 4 + DIGITS_TO_BYTES.getD (scale % 9) 0
  let (data, d1) ← defaults.read (int_length + frac_length)
  match data with
  | [] => Except.error Err.structError
  | first :: rest =>
    let sign := if first &&& 128 ≠ 0 then "" else "-"
    let data2 := (first ^^^ 128) :: rest
    let invert : Bool := sign == "-"
    let parts0 :=
      if int_length ≠ 0 then
        let integer_part := _decode_decimal (data2.take int_length) invert
        let integer_part2 :=
          if lstripZero integer_part = "" then "0" else lstripZero integer_part
        [sign ++ integer_part2]
      else [sign ++ "0"]
    let parts :=
      if frac_length ≠ 0 then
        parts0 ++
          [zfillPy scale (_decode_decimal (data2.drop (data2.length - frac_length)) invert)]
      else parts0
    return (pyRepr (String.intercalate "." parts), d1)

-- Integer types: signed is denoted by the DECIMAL flag.

def _format_integer_default (value : Int) : String :=
  quoteWrap (intStr value)

/-- Shared body of the integer unpackers: a w-byte little-endian read,
signed when the DECIMAL flag is set. -/
def unpackIntCol (w : Nat) (defaults : ByteReader) (context : Ctx) :
    Except Err (String × ByteReader) := do
  let (value, d1) ←
    if context.flags.DECIMAL then defaults.sintLE w
    else (defaults.uintLE w).map (fun p => ((p.1 : Int), p.2))
  return (_format_integer_default value, d1)

def unpack_type_tiny : ByteReader → Ctx → Except Err (String × ByteReader) :=
  unpackIntCol 1

def unpack_type_short : ByteReader → Ctx → Except Err (String × ByteReader) :=
  unpackIntCol 2

def unpack_type_int24 : ByteReader → Ctx → Except Err (String × ByteReader) :=
  unpackIntCol 3

def unpack_type_long : ByteReader → Ctx → Except Err (String × ByteReader) :=
  unpackIntCol 4

def unpack_type_longlong : ByteReader → Ctx → Except Err (String × ByteReader) :=
  unpackIntCol 8

-- Date and time types.

def _sec_part_shift (value : Nat) (digits : Nat) : Nat :=
  value / 10 ^ (TIME_SECOND_PART_DIGITS - digits)

def _sec_part_unshift (value : Int) (digits : Nat) : Int :=
  value * 10 ^ (TIME_SECOND_PART_DIGITS - digits)

/-- Unpack the default value for a MariaDB TIME(N) column: an unsigned
big-endian offset from a computed zero point, rescaled to microseconds
and split into time components. -/
def _unpack_type_time_hires (defaults : ByteReader) (context : Ctx) (scale : Nat) :
    Except Err (String × ByteReader) :=
  if 7 ≤ scale then Except.error Err.indexError
  else do
    let pack_length := TIME_HIRES_BYTES.getD scale 0
    let (value, d1) ← defaults.uintBE pack_length
    let zero_point := _sec_part_shift ((TIME_MAX_VALUE_SECONDS + 1) * TIME_SECOND_PART_FACTOR) scale
    let v1 : Int := _sec_part_unshift ((value : Int) - (zero_point : Int)) scale
    let usec := Int.fmod v1 1000000
    let v2 := Int.fdiv v1 1000000
    let sec := Int.fmod v2 60
    let v3 := Int.fdiv v2 60
    let minute := Int.fmod v3 60
    let hour := Int.fdiv v3 60
    let result := zfillPy 2 (intStr hour) ++ ":" ++ zfillPy 2 (intStr minute) ++ ":" ++
      zfillPy 2 (intStr sec) ++ "." ++ zfillPy 6 (intStr usec)
    let result2 :=
      if scale < 6 then String.mk (result.toList.take (result.toList.length - (6 - scale)))
      else result
    return (quoteWrap result2, d1)

/-- Unpack a legacy TIME default: base-100 packed HHMMSS in a 3-byte
unsigned read, or the MariaDB hi-res encoding when the length implies a
positive fractional scale. -/
def unpack_type_time (defaults : ByteReader) (context : Ctx) :
    Except Err (String × ByteReader) :=
  let scale : Int := (context.length : Int) - MAX_TIME_WIDTH - 1
  if 0 < scale then _unpack_type_time_hires defaults context scale.toNat
  else do
    let (value, d1) ← defaults.uintLE 3
    let hour := value / 10000
    let minute := (value / 100) % 100
    let second := value % 100
    return (quoteWrap (zfillPy 2 (natStr hour) ++ ":" ++ zfillPy 2 (natStr minute) ++ ":" ++
      zfillPy 2 (natStr second)), d1)

/-- Unpack a TIME2 default: 3 bytes, sign in the (inverted) top bit,
hour(10) minute(6) second(6) bit fields, one's-complement negatives,
plus a 0-3 byte big-endian fraction sized by scale. -/
def unpack_type_time2 (defaults : ByteReader) (context : Ctx) :
    Except Err (String × ByteReader) := do
  let (data, d1) ← defaults.read 3
  match data with
  | [] => Except.error Err.structError
  | first :: rest =>
    let is_neg : Bool := first &&& 128 == 0
    let bytes4 := 0 :: (first ^^^ 128) :: rest
    let value0 := toSigned 4 (beNat bytes4)
    let value : Int := if is_neg then -value0 - 1 else value0
    let hour := Int.fmod (Int.fdiv value 4096) 1024
    let minute := Int.fmod (Int.fdiv value 64) 64
    let second := Int.fmod value 64
    let result := zfillPy 2 (intStr hour) ++ ":" ++ zfillPy 2 (intStr minute) ++ ":" ++
      zfillPy 2 (intStr second)
    let scale : Int := (context.length : Int) - MAX_TIME_WIDTH - 1
    if 0 < scale then
      if 10 ≤ scale.toNat then Except.error Err.indexError
      else do
        let (fdata, d2) ← d1.read (DIGITS_TO_BYTES.getD scale.toNat 0)
        let fdata2 :=
          if fdata.length % 4 ≠ 0 then
            List.replicate (4 - fdata.length % 4) (if is_neg then 255 else 0) ++ fdata
          else fdata
        let frac0 := toSigned 4 (beNat fdata2)
        let frac1 := if frac0 < 0 then -frac0 else frac0
        let fracs := zfillPy scale.toNat (intStr frac1)
        let fracs2 :=
          if scale.toNat < fracs.toList.length then String.mk (fracs.toList.take scale.toNat)
          else fracs
        let result2 := result ++ "." ++ fracs2
        let result3 := if is_neg then "-" ++ result2 else result2
        return (quoteWrap result3, d2)
    else
      let result3 := if is_neg then "-" ++ result else result
      return (quoteWrap result3, d1)

/-- Unpack a YEAR default: one unsigned byte, 0 renders 0000, any other
value renders 1900 plus the byte. -/
def unpack_type_year (defaults : ByteReader) (context : Ctx) :
    Except Err (String × ByteReader) := do
  let (value, d1) ← defaults.uintLE 1
  if value = 0 then return (quoteWrap "0000", d1)
  else return (quoteWrap (natStr (1900 + value)), d1)

/-- Pre-4.1 DATE defaults are unsupported by design. -/
def unpack_type_date (defaults : ByteReader) (context : Ctx) :
    Except Err (String × ByteReader) :=
  Except.error Err.notImplemented

/-- Unpack a NEWDATE default: 3 bytes packed year(15) month(4) day(5). -/
def unpack_type_newdate (defaults : ByteReader) (context : Ctx) :
    Except Err (String × ByteReader) := do
  let (value, d1) ← defaults.uintLE 3
  let year := value >>> 9
  let month := (value >>> 5) &&& 15
  let day := value &&& 31
  return (quoteWrap (padSpace 4 (natStr year) ++ "-" ++ zfillPy 2 (natStr month) ++ "-" ++
    zfillPy 2 (natStr day)), d1)

/-- Modelled from the spec: conversion of nonzero epoch seconds to a
civil calendar timestamp string. The source delegates to the runtime
library datetime.datetime.fromtimestamp; it is modelled here as the
standard civil-from-days conversion at UTC. -/
def civilFromDays (z0 : Int) : Int × Int × Int :=
  let z := z0 + 719468
  let era := Int.fdiv z 146097
  let doe := z - era * 146097
  let yoe := Int.fdiv (doe - Int.fdiv doe 1460 + Int.fdiv doe 36524 - Int.fdiv doe 146096) 365
  let y := yoe + era * 400
  let doy := doe - (365 * yoe + Int.fdiv yoe 4 - Int.fdiv yoe 100)
  let mp := Int.fdiv (5 * doy + 2) 153
  let d := doy - Int.fdiv (153 * mp + 2) 5 + 1
  let m := mp + (if mp < 10 then 3 else -9)
  (y + (if m ≤ 2 then 1 else 0), m, d)

/-- Modelled from the spec: strftime of epoch seconds with the format
year-month-day hour:minute:second. -/
def fromtimestampFmt (epoch : Int) : String :=
  let days := Int.fdiv epoch 86400
  let secs := Int.fmod epoch 86400
  let ymd := civilFromDays days
  let hh := Int.fdiv secs 3600
  let mm := Int.fmod (Int.fdiv secs 60) 60
  let ss := Int.fmod secs 60
  zfillPy 4 (intStr ymd.1) ++ "-" ++ zfillPy 2 (intStr ymd.2.1) ++ "-" ++
    zfillPy 2 (intStr ymd.2.2) ++ " " ++ zfillPy 2 (intStr hh) ++ ":" ++
    zfillPy 2 (intStr mm) ++ ":" ++ zfillPy 2 (intStr ss)

/-- Unpack a TIMESTAMP2 default: 4-byte big-endian signed epoch seconds
plus a 0-3 byte big-endian fraction sized by scale; the unireg_check
branch only selects the rendered text. -/
def unpack_type_timestamp2 (defaults : ByteReader) (context : Ctx) :
    Except Err (String × ByteReader) := do
  let (epoch, d1) ← defaults.sintBE 4
  let value := if epoch ≠ 0 then fromtimestampFmt epoch else "0000-00-00 00:00:00"
  let scale : Int := (context.length : Int) - MAX_DATETIME_WIDTH - 1
  let res ←
    (if 0 < scale then
      if 10 ≤ scale.toNat then Except.error Err.indexError
      else
        let nbytes := DIGITS_TO_BYTES.getD scale.toNat 0
        if nbytes = 1 ∨ nbytes = 2 ∨ nbytes = 3 then
          (d1.uintBE nbytes).map
            (fun p => (value ++ "." ++ zfillPy scale.toNat (natStr p.1), p.2))
        else Except.error (Err.valueError "Invalid scale for TIMESTAMP")
    else Except.ok (value, d1))
  let value2 := res.1
  let d2 := res.2
  let scale_str := if 0 < scale then "(" ++ intStr scale ++ ")" else ""
  let text :=
    if context.unireg_check = Utype.TIMESTAMP_DN_FIELD then
      "CURRENT_TIMESTAMP" ++ scale_str
    else if context.unireg_check = Utype.TIMESTAMP_UN_FIELD then
      quoteWrap value2 ++ " ON UPDATE CURRENT_TIMESTAMP" ++ scale_str
    else if context.unireg_check = Utype.TIMESTAMP_DNUN_FIELD then
      "CURRENT_TIMESTAMP" ++ scale_str ++ " ON UPDATE CURRENT_TIMESTAMP" ++ scale_str
    else quoteWrap value2
  return (text, d2)

/-- Unpack a legacy TIMESTAMP default: 4-byte little-endian signed
epoch, delegating to the TIMESTAMP2 reader when the length implies a
positive fractional scale. -/
def unpack_type_timestamp (defaults : ByteReader) (context : Ctx) :
    Except Err (String × ByteReader) :=
  let scale : Int := (context.length : Int) - MAX_DATETIME_WIDTH - 1
  if 0 < scale then unpack_type_timestamp2 defaults context
  else do
    let (epoch, d1) ← defaults.sintLE 4
    let value := if epoch ≠ 0 then fromtimestampFmt epoch else "0000-00-00 00:00:00"
    let text :=
      if context.unireg_check = Utype.TIMESTAMP_DN_FIELD then "CURRENT_TIMESTAMP"
      else if context.unireg_check = Utype.TIMESTAMP_UN_FIELD then
        quoteWrap value ++ " ON UPDATE CURRENT_TIMESTAMP"
      else if context.unireg_check = Utype.TIMESTAMP_DNUN_FIELD then
        "CURRENT_TIMESTAMP ON UPDATE CURRENT_TIMESTAMP"
      else quoteWrap value
    return (text, d1)

/-- Unpack a MariaDB hi-res DATETIME default: an 8-byte big-endian
integer rescaled to microseconds and split by successive division. -/
def _unpack_type_datetime_hires (defaults : ByteReader) (context : Ctx) (scale : Nat) :
    Except Err (String × ByteReader) := do
  let (value0, d1) ← defaults.uintBE 8
  let value1 := value0 * 10 ^ (TIME_SECOND_PART_DIGITS - scale)
  let usec := value1 % 1000000
  let v2 := value1 / 1000000
  let second := v2 % 60
  let v3 := v2 / 60
  let minute := v3 % 60
  let v4 := v3 / 60
  let hour := v4 % 24
  let v5 := v4 / 24
  let day := v5 % 32
  let v6 := v5 / 32
  let month := v6 % 13
  let year := v6 / 13
  return (quoteWrap (natStr year ++ "-" ++ zfillPy 2 (natStr month) ++ "-" ++
    zfillPy 2 (natStr day) ++ " " ++ zfillPy 2 (natStr hour) ++ ":" ++
    zfillPy 2 (natStr minute) ++ ":" ++ zfillPy 2 (natStr second) ++ "." ++
    zfillPy scale (natStr usec)), d1)

/-- Unpack a legacy DATETIME default: an 8-byte unsigned integer holding
base-100 packed decimal components. -/
def unpack_type_datetime (defaults : ByteReader) (context : Ctx) :
    Except Err (String × ByteReader) :=
  let scale : Int := (context.length : Int) - MAX_DATETIME_WIDTH - 1
  if 0 < scale then _unpack_type_datetime_hires defaults context scale.toNat
  else do
    let (value, d1) ← defaults.uintLE 8
    let second := value % 100
    let v2 := value / 100
    let minute := v2 % 100
    let v3 := v2 / 100
    let hour := v3 % 100
    let v4 := v3 / 100
    let day := v4 % 100
    let v5 := v4 / 100
    let month := v5 % 100
    let v6 := v5 / 100
    let year := v6 % 10000
    return (quoteWrap (zfillPy 4 (natStr year) ++ "-" ++ zfillPy 2 (natStr month) ++ "-" ++
      zfillPy 2 (natStr day) ++ " " ++ zfillPy 2 (natStr hour) ++ ":" ++
      zfillPy 2 (natStr minute) ++ ":" ++ zfillPy 2 (natStr second)), d1)

/-- Unpack a DATETIME2 default: 5 big-endian bytes holding a 23-bit
year-month-day field (day in the low 5 bits, year*13+month above it) and
a 17-bit hour-minute-second field, plus an optional big-endian
fraction. -/
def unpack_type_datetime2 (defaults : ByteReader) (context : Ctx) :
    Except Err (String × ByteReader) := do
  let (ymdhms, d1) ← defaults.uintBE 5
  let ymd := ymdhms >>> 17
  let ym0 := ymd >>> 5
  let ym := ym0 - 131072 * ((ym0 >>> 17) % 2)
  let day := ymd % 32
  let month := ym % 13
  let year := ym / 13
  let hms := ymdhms % 131072
  let second := hms % 64
  let minute := (hms >>> 6) % 64
  let hour := hms >>> 12
  let value := natStr year ++ "-" ++ zfillPy 2 (natStr month) ++ "-" ++
    zfillPy 2 (natStr day) ++ " " ++ zfillPy 2 (natStr hour) ++ ":" ++
    zfillPy 2 (natStr minute) ++ ":" ++ zfillPy 2 (natStr second)
  let scale : Int := (context.length : Int) - MAX_DATETIME_WIDTH - 1
  if 0 < scale then
    if 10 ≤ scale.toNat then Except.error Err.indexError
    else do
      let (frac_bytes, d2) ← d1.read (DIGITS_TO_BYTES.getD scale.toNat 0)
      let microseconds := beNat (List.replicate (4 - frac_bytes.length) 0 ++ frac_bytes)
      let ms := zfillPy scale.toNat (natStr microseconds)
      let ms2 :=
        if scale.toNat < ms.toList.length then String.mk (ms.toList.take scale.toNat)
        else ms
      return (quoteWrap (value ++ "." ++ ms2), d2)
  else return (quoteWrap value, d1)

-- String types.

/-- Unpack a modern VARCHAR default: a 1- or 2-byte length prefix, then
that many raw bytes; binary-charset values have NUL bytes escaped and
are decoded permissively, others decode through the charset routine. -/
def unpack_type_varchar (defaults : ByteReader) (context : Ctx) :
    Except Err (String × ByteReader) := do
  let (length, d1) ←
    if context.length < 256 then defaults.uintLE 1 else defaults.uintLE 2
  let (data, d2) ← d1.read length
  if context.charset.name = "binary" then
    return (quoteWrap (rstripSpace (asciiDecodeReplace (pyReplaceNulBytes data))), d2)
  else
    return (quoteWrap (context.charset.decode data), d2)

/-- Unpack a MySQL 4.1 VARCHAR(N) default: exactly the declared byte
length, charset-decoded, trailing spaces stripped. -/
def unpack_type_var_string (defaults : ByteReader) (context : Ctx) :
    Except Err (String × ByteReader) := do
  let (data, d1) ← defaults.read context.length
  return (quoteWrap (rstripSpace (context.charset.decode data)), d1)

/-- Unpack a CHAR(N) fixed-length default: trailing spaces are always
stripped; binary-charset values have NUL bytes escaped and are decoded
permissively. -/
def unpack_type_string (defaults : ByteReader) (context : Ctx) :
    Except Err (String × ByteReader) := do
  let (bytestr, d1) ← defaults.read context.length
  if context.charset.name = "binary" then
    return (quoteWrap (rstripSpace (asciiDecodeReplace (pyReplaceNulBytes bytestr))), d1)
  else
    return (quoteWrap (rstripSpace (context.charset.decode bytestr)), d1)

/-- Unpack a BIT(m) default: ceil(m/8) bytes zero-extended to a 64-bit
big-endian word rendered as a binary literal. -/
def unpack_type_bit (defaults : ByteReader) (context : Ctx) :
    Except Err (String × ByteReader) := do
  let nbytes := (context.length + 7) / 8
  let (bs, d1) ← defaults.read nbytes
  let full := List.replicate (8 - nbytes) 0 ++ bs
  if full.length = 8 then
    return ("b" ++ quoteWrap (natBin (beNat full)), d1)
  else Except.error Err.structError

/-- Unpack an ENUM default: a 1-byte ordinal when there are fewer than
256 labels (2-byte otherwise), indexed one-based into the label list;
an out-of-range index yields the empty string. -/
def unpack_type_enum (defaults : ByteReader) (context : Ctx) :
    Except Err (String × ByteReader) := do
  let (v, d1) ←
    if context.labels.length < 256 then defaults.uintLE 1 else defaults.uintLE 2
  let offset : Int := (v : Int) - 1
  match pyIndex context.labels offset with
  | some lbl => return (quoteWrap lbl, d1)
  | none => return (quoteWrap "", d1)

/-- Unpack a SET default: a bitmask of 1-4 bytes (or exactly 8) sized by
the label count; set bits select labels in ascending order. -/
def unpack_type_set (defaults : ByteReader) (context : Ctx) :
    Except Err (String × ByteReader) := do
  let elt_count := context.labels.length
  let n_bytes0 := (elt_count + 7) / 8
  let n_bytes := if n_bytes0 > 4 then 8 else n_bytes0
  if n_bytes = 1 ∨ n_bytes = 2 ∨ n_bytes = 3 ∨ n_bytes = 4 ∨ n_bytes = 8 then do
    let (value, d1) ← defaults.uintLE n_bytes
    let names := context.labels.enum.filterMap
      (fun p => if value &&& (1 <<< p.1) != 0 then some p.2 else none)
    return (quoteWrap (String.intercalate "," names), d1)
  else Except.error (Err.valueError "Sets cannot have more than 64 elements")

/-- Blob-family defaults cannot exist in any supported record version;
always not implemented. -/
def unpack_type_long_blob (defaults : ByteReader) (context : Ctx) :
    Except Err (String × ByteReader) :=
  Except.error Err.notImplemented

def unpack_type_tiny_blob : ByteReader → Ctx → Except Err (String × ByteReader) :=
  unpack_type_long_blob

def unpack_type_medium_blob : ByteReader → Ctx → Except Err (String × ByteReader) :=
  unpack_type_long_blob

def unpack_type_blob : ByteReader → Ctx → Except Err (String × ByteReader) :=
  unpack_type_long_blob

/-- GEOMETRY cannot have a default value; always not implemented. -/
def unpack_type_geometry (defaults : ByteReader) (context : Ctx) :
    Except Err (String × ByteReader) :=
  Except.error Err.notImplemented

/-- The NULL type never carries a default; the source raises the bare
NotImplemented object, which is a TypeError at runtime. -/
def unpack_type_null (defaults : ByteReader) (context : Ctx) :
    Except Err (String × ByteReader) :=
  Except.error Err.typeError

-- Dispatch and the null protocol.

/-- The per-type default decoder dispatch. The dynamic handler lookup by
formatted type name in the source maps to an exhaustive match over the
closed type-code enumeration. -/
def unpack_dispatch (t : TypeCode) : ByteReader → Ctx → Except Err (String × ByteReader) :=
  match t with
  | .tiny => unpack_type_tiny
  | .short => unpack_type_short
  | .int24 => unpack_type_int24
  | .long => unpack_type_long
  | .longlong => unpack_type_longlong
  | .decimal => unpack_type_decimal
  | .newdecimal => unpack_type_newdecimal
  | .year => unpack_type_year
  | .date => unpack_type_date
  | .newdate => unpack_type_newdate
  | .time => unpack_type_time
  | .time2 => unpack_type_time2
  | .timestamp => unpack_type_timestamp
  | .timestamp2 => unpack_type_timestamp2
  | .datetime => unpack_type_datetime
  | .datetime2 => unpack_type_datetime2
  | .varchar => unpack_type_varchar
  | .var_string => unpack_type_var_string
  | .string => unpack_type_string
  | .enum => unpack_type_enum
  | .set => unpack_type_set
  | .bit => unpack_type_bit
  | .tiny_blob => unpack_type_tiny_blob
  | .blob => unpack_type_blob
  | .medium_blob => unpack_type_medium_blob
  | .long_blob => unpack_type_long_blob
  | .geometry => unpack_type_geometry
  | .null => unpack_type_null

/-- The tail of unpack_default after the early no-default return and the
null-bit block: suppress blob defaults, then dispatch by type code,
re-raising a not-implemented signal as a lookup failure. -/
def unpack_default_rest (defaults : ByteReader) (context : Ctx) :
    Except Err (Option String × ByteReader) :=
  if context.unireg_check = Utype.BLOB_FIELD then
    Except.ok (none, defaults)
  else
    match unpack_dispatch context.type_code defaults context with
    | Except.error Err.notImplemented =>
        Except.error (Err.lookupError "Unpack method not implemented")
    | Except.error e => Except.error e
    | Except.ok (s, d) => Except.ok (some s, d)

/-- Unpack a default value from the shared defaults buffer. Returns the
decode outcome (some literal, none for "no default", or an error)
together with the final context, whose null-bit cursor reflects the
in-place mutation the source performs before dispatch. -/
def unpack_default (defaults : ByteReader) (context : Ctx) :
    Except Err (Option String × ByteReader) × Ctx :=
  if context.flags.NO_DEFAULT = true ∨ context.unireg_check = Utype.NEXT_NUMBER then
    (Except.ok (none, defaults), context)
  else if context.flags.MAYBE_NULL = true then
    match context.null_map[context.null_bit / 8]? with
    | none => (Except.error Err.indexError, context)
    | some null_byte =>
      let bit := context.null_bit % 8
      let context1 := { context with null_bit := context.null_bit + 1 }
      if null_byte &&& (1 <<< bit) ≠ 0 ∧ ¬ context.unireg_check = Utype.BLOB_FIELD then
        (Except.ok (some "NULL", defaults), context1)
      else
        (unpack_default_rest defaults context1, context1)
  else
    (unpack_default_rest defaults context, context)

-- Formatting of types.

def _format_number (name : String) (context : Ctx) : String :=
  let value := name
  let value := if context.length ≠ 0 then value ++ "(" ++ natStr context.length ++ ")" else value
  let value := if context.flags.DECIMAL then value else value ++ " unsigned"
  let value := if context.flags.ZEROFILL then value ++ " zerofill" else value
  value

def format_type_tiny (context : Ctx) : String := _format_number "tinyint" context

def format_type_short (context : Ctx) : String := _format_number "smallint" context

def format_type_int24 (context : Ctx) : String := _format_number "mediumint" context

def format_type_long (context : Ctx) : String := _format_number "int" context

def format_type_longlong (context : Ctx) : String := _format_number "bigint" context

def format_type_newdecimal (context : Ctx) : String :=
  let scale := f_decimals context.flags
  let precision0 := context.length
  let precision1 := if scale ≠ 0 then precision0 - 1 else precision0
  let precision := if precision1 ≠ 0 then precision1 - 1 else precision1
  "decimal(" ++ natStr precision ++ "," ++ natStr scale ++ ")"

def format_type_decimal : Ctx → String := format_type_newdecimal

def _format_charset (context : Ctx) : String :=
  let value := ""
  let value :=
    if context.tableCharset.name ≠ context.charset.name ∧ context.charset.name ≠ "binary" then
      value ++ " CHARACTER SET " ++ context.charset.name
    else value
  let value :=
    if context.charset.is_default then value
    else value ++ " COLLATE " ++ context.charset.collation
  value

def format_type_string (context : Ctx) : String :=
  let name := if context.charset.name = "binary" then "binary" else "char"
  name ++ "(" ++ natStr (context.length / context.charset.maxlen) ++ ")" ++
    _format_charset context

def format_type_varchar (context : Ctx) : String :=
  let name := if context.charset.name = "binary" then "varbinary" else "varchar"
  name ++ "(" ++ natStr (context.length / context.charset.maxlen) ++ ")" ++
    _format_charset context

def format_type_var_string : Ctx → String := format_type_varchar

def format_type_enum (context : Ctx) : String :=
  "enum(" ++ String.intercalate "," (context.labels.map (fun n => quoteWrap n)) ++ ")" ++
    _format_charset context

def format_type_set (context : Ctx) : String :=
  "set(" ++ String.intercalate "," (context.labels.map (fun n => quoteWrap n)) ++ ")" ++
    _format_charset context

def format_type_tiny_blob (context : Ctx) : String :=
  if context.charset.name = "binary" then "tinyblob"
  else "tinytext" ++ _format_charset context

def format_type_blob (context : Ctx) : String :=
  if context.charset.name = "binary" then "blob"
  else "text" ++ _format_charset context

def format_type_medium_blob (context : Ctx) : String :=
  if context.charset.name = "binary" then "mediumblob"
  else "mediumtext" ++ _format_charset context

def format_type_long_blob (context : Ctx) : String :=
  if context.charset.name = "binary" then "longblob"
  else "longtext" ++ _format_charset context

def format_type_bit (context : Ctx) : String :=
  "bit(" ++ natStr context.length ++ ")"

def format_type_time2 (context : Ctx) : String :=
  let scale : Int := (context.length : Int) - MAX_TIME_WIDTH - 1
  if 0 < scale then "time(" ++ intStr scale ++ ")" else "time"

def format_type_time : Ctx → String := format_type_time2

def format_type_timestamp2 (context : Ctx) : String :=
  let scale : Int := (context.length : Int) - MAX_DATETIME_WIDTH - 1
  if 0 < scale then "timestamp(" ++ intStr scale ++ ")" else "timestamp"

def format_type_timestamp : Ctx → String := format_type_timestamp2

def format_type_year (context : Ctx) : String :=
  "year(" ++ natStr context.length ++ ")"

def format_type_newdate (context : Ctx) : String := "date"

def format_type_date : Ctx → String := format_type_newdate

def format_type_datetime2 (context : Ctx) : String :=
  let scale : Int := (context.length : Int) - MAX_DATETIME_WIDTH - 1
  if 0 < scale then "datetime(" ++ intStr scale ++ ")" else "datetime"

def format_type_datetime : Ctx → String := format_type_datetime2

/-- The geometry formatter renders the lowercase subtype name, carried
pre-lowered in the context. -/
def format_type_geometry (context : Ctx) : String :=
  context.subtypeName

/-- The per-type formatter dispatch over the closed type-code
enumeration; the NULL type has no formatter in the source, so its
lookup misses. -/
def format_dispatch (t : TypeCode) : Option (Ctx → String) :=
  match t with
  | .tiny => some format_type_tiny
  | .short => some format_type_short
  | .int24 => some format_type_int24
  | .long => some format_type_long
  | .longlong => some format_type_longlong
  | .decimal => some format_type_decimal
  | .newdecimal => some format_type_newdecimal
  | .year => some format_type_year
  | .date => some format_type_date
  | .newdate => some format_type_newdate
  | .time => some format_type_time
  | .time2 => some format_type_time2
  | .timestamp => some format_type_timestamp
  | .timestamp2 => some format_type_timestamp2
  | .datetime => some format_type_datetime
  | .datetime2 => some format_type_datetime2
  | .varchar => some format_type_varchar
  | .var_string => some format_type_var_string
  | .string => some format_type_string
  | .enum => some format_type_enum
  | .set => some format_type_set
  | .bit => some format_type_bit
  | .tiny_blob => some format_type_tiny_blob
  | .blob => some format_type_blob
  | .medium_blob => some format_type_medium_blob
  | .long_blob => some format_type_long_blob
  | .geometry => some format_type_geometry
  | .null => none

/-- Format a column type: the per-type fragment (a dispatch miss is a
lookup failure), then the NOT NULL suffix for non-nullable columns, then
the AUTO_INCREMENT suffix for auto-increment columns. -/
def format_type (context : Ctx) : Except Err String :=
  match format_dispatch context.type_code with
  | none => Except.error (Err.lookupError "No method to format type")
  | some dispatch =>
    let result := dispatch context
    let result := if context.flags.MAYBE_NULL then result else result ++ " NOT NULL"
    let result :=
      if context.unireg_check = Utype.NEXT_NUMBER then result ++ " AUTO_INCREMENT"
      else result
    Except.ok result

-- Specification-side definitions: the NEWDECIMAL encoder written from
-- the words of the specification (groups of up to nine decimal digits
-- per big-endian 4-byte word, partial groups high-side extended,
-- negative values one's-complemented, first byte top bit flipped), used
-- to state the packed-decimal round-trip property; and the NUL-escape
-- pipeline used to state the binary-charset string property.

/-- Big-endian byte encoding of a natural number in exactly k bytes. -/
def natToBytesBE : Nat → Nat → List Nat
  | 0, _ => []
  | k + 1, n => natToBytesBE k (n / 256) ++ [n % 256]

/-- The stored byte width of a run of d decimal digits (d at most 9 per
group): four bytes per full nine-digit group plus the table width of the
partial group. -/
def byteLenD (d : Nat) : Nat :=
  (d / 9) * 4 + DIGITS_TO_BYTES.getD (d % 9) 0

/-- The 4-byte big-endian words of q full nine-digit groups of m, most
significant group first. -/
def fullGroups : Nat → Nat → List Nat
  | 0, _ => []
  | q + 1, m => natToBytesBE 4 (m / 10 ^ (9 * q)) ++ fullGroups q (m % 10 ^ (9 * q))

/-- Spec-side encoding of a d-digit integer part: the outermost partial
group (d mod 9 digits, table-width bytes) followed by the full nine-digit
groups. -/
def intGroupBytes (d : Nat) (ip : Nat) : List Nat :=
  let q := d / 9
  let p := d % 9
  (if p ≠ 0 then natToBytesBE (DIGITS_TO_BYTES.getD p 0) (ip / 10 ^ (9 * q)) else []) ++
    fullGroups q (ip % 10 ^ (9 * q))

/-- Spec-side encoding of an s-digit fractional part: full nine-digit
groups first, the innermost partial group (s mod 9 digits) last. -/
def fracGroupBytes (s : Nat) (fp : Nat) : List Nat :=
  let q := s / 9
  let p := s % 9
  fullGroups q (fp / 10 ^ p) ++
    (if p ≠ 0 then natToBytesBE (DIGITS_TO_BYTES.getD p 0) (fp % 10 ^ p) else [])

/-- Spec-side NEWDECIMAL encoder for precision P, scale S: integer-part
groups then fractional-part groups, every byte one's-complemented for a
negative value, and the top bit of the first stored byte flipped. -/
def encodeNewdecimalSpec (P S : Nat) (neg : Bool) (ip fp : Nat) : List Nat :=
  let raw := intGroupBytes (P - S) ip ++ fracGroupBytes S fp
  let raw2 := if neg then raw.map (fun b => 255 - b) else raw
  match raw2 with
  | [] => []
  | b :: rest => (b ^^^ 128) :: rest

/-- Spec-side NUL escaping: each zero byte becomes the two-character
backslash-zero sequence. -/
def escapeNulSpec (bs : List Nat) : List Nat :=
  bs.flatMap (fun b => if b = 0 then [92, 48] else [b])

-- Concrete fixtures shared by witnesses and counterexamples.

/-- A concrete binary pseudo-charset sample whose decode routine is the
permissive ascii decode. -/
def binCharset : Charset :=
  ⟨"binary", "binary", true, 1, asciiDecodeReplace⟩

/-- A neutral concrete column context to instantiate theorems on. -/
def baseCtx : Ctx :=
  { type_code := TypeCode.long
    flags := ⟨false, false, false, false, 0⟩
    unireg_check := Utype.NONE
    length := 0
    charset := binCharset
    tableCharset := binCharset
    labels := []
    subtypeName := ""
    null_bit := 0
    null_map := [] }

/-- The fractional byte count a TIMESTAMP2 column of the given packed
length consumes after its 4-byte epoch. -/
def ts2FracLen (length : Nat) : Nat :=
  if 0 < (length : Int) - MAX_DATETIME_WIDTH - 1 then
    DIGITS_TO_BYTES.getD ((length : Int) - MAX_DATETIME_WIDTH - 1).toNat 0
  else 0

-- Helper lemmas about the byte reader and byte arithmetic.

theorem beNat_append_singleton (xs : List Nat) (b : Nat) :
    beNat (xs ++ [b]) = 256 * beNat xs + b := by
  simp [beNat, List.foldl_append, Nat.mul_comm]

theorem beNat_singleton (b : Nat) : beNat [b] = b := by
  simp [beNat]

theorem natToBytesBE_length (k n : Nat) : (natToBytesBE k n).length = k := by
  induction k generalizing n with
  | zero => rfl
  | succ k ih => simp [natToBytesBE, ih]

theorem natToBytesBE_lt (k n : Nat) : ∀ b ∈ natToBytesBE k n, b < 256 := by
  induction k generalizing n with
  | zero => intro b hb; simp [natToBytesBE] at hb
  | succ k ih =>
    intro b hb
    simp only [natToBytesBE, List.mem_append, List.mem_singleton] at hb
    rcases hb with hb | hb
    · exact ih _ _ hb
    · subst hb; exact Nat.mod_lt _ (by norm_num)

theorem beNat_natToBytesBE (k n : Nat) : beNat (natToBytesBE k n) = n % 256 ^ k := by
  induction k generalizing n with
  | zero => simp [natToBytesBE, beNat, Nat.mod_one]
  | succ k ih =>
    rw [natToBytesBE, beNat_append_singleton, ih]
    rw [pow_succ, Nat.mul_comm (256 ^ k) 256, Nat.mod_mul]
    ring

theorem beNat_natToBytesBE_of_lt (k n : Nat) (h : n < 256 ^ k) :
    beNat (natToBytesBE k n) = n := by
  rw [beNat_natToBytesBE, Nat.mod_eq_of_lt h]

theorem beNat_replicate_zero (p : Nat) (xs : List Nat) :
    beNat (List.replicate p 0 ++ xs) = beNat xs := by
  induction p with
  | zero => rfl
  | succ p ih => simpa [beNat, List.replicate_succ] using ih

theorem beNat_lt (xs : List Nat) (h : ∀ b ∈ xs, b < 256) :
    beNat xs < 256 ^ xs.length := by
  induction xs using List.reverseRecOn with
  | nil => simp [beNat]
  | append_singleton ys b ih =>
    rw [beNat_append_singleton]
    have hb : b < 256 := h b (by simp)
    have hys := ih (fun c hc => h c (by simp [hc]))
    rw [List.length_append, List.length_singleton, pow_succ]
    have : beNat ys ≤ 256 ^ ys.length - 1 := by omega
    calc 256 * beNat ys + b ≤ 256 * (256 ^ ys.length - 1) + 255 := by
          have := Nat.mul_le_mul_left 256 this; omega
      _ < 256 ^ ys.length * 256 := by
          have hpow : 1 ≤ 256 ^ ys.length := Nat.one_le_pow _ _ (by norm_num)
          omega
  
theorem beNat_map_compl (xs : List Nat) (h : ∀ b ∈ xs, b < 256) :
    beNat (xs.map (fun b => 255 - b)) = 256 ^ xs.length - 1 - beNat xs := by
  induction xs using List.reverseRecOn with
  | nil => simp [beNat]
  | append_singleton ys b ih =>
    have hb : b < 256 := h b (by simp)
    have hys : ∀ c ∈ ys, c < 256 := fun c hc => h c (by simp [hc])
    have hylt := beNat_lt ys hys
    rw [List.map_append, List.map_singleton, beNat_append_singleton,
      beNat_append_singleton, ih hys, List.length_append, List.length_singleton,
      pow_succ]
    have hpow : 1 ≤ 256 ^ ys.length := Nat.one_le_pow _ _ (by norm_num)
    omega

-- Bitwise facts for byte values, established by finite check.

theorem xor128_of_lt (b : Nat) (h : b < 128) : b ^^^ 128 = b + 128 := by
  have H : ∀ x : Fin 128, x.val ^^^ 128 = x.val + 128 := by decide
  exact H ⟨b, h⟩

theorem xor128_of_ge (b : Nat) (h1 : 128 ≤ b) (h2 : b < 256) : b ^^^ 128 = b - 128 := by
  have H : ∀ x : Fin 256, 128 ≤ x.val → x.val ^^^ 128 = x.val - 128 := by decide
  exact H ⟨b, h2⟩ h1

theorem and128_eq (b : Nat) (h : b < 256) : b &&& 128 = if 128 ≤ b then 128 else 0 := by
  have H : ∀ x : Fin 256, x.val &&& 128 = if 128 ≤ x.val then 128 else 0 := by decide
  exact H ⟨b, h⟩

-- Reading at an explicit reader position.

theorem read_at_append (pre mid post : List Nat) :
    ByteReader.read ⟨pre ++ (mid ++ post), pre.length⟩ mid.length =
      Except.ok (mid, ⟨pre ++ (mid ++ post), pre.length + mid.length⟩) := by
  unfold ByteReader.read
  have hle : pre.length + mid.length ≤ (pre ++ (mid ++ post)).length := by
    simp only [List.length_append]
    omega
  rw [if_pos hle]
  have hdrop : (pre ++ (mid ++ post)).drop pre.length = mid ++ post :=
    List.drop_left pre (mid ++ post)
  rw [hdrop]
  have htake : (mid ++ post).take mid.length = mid := List.take_left mid post
  rw [htake]

-- C10: the YEAR decoder.

/-- C10: unpack_type_year always consumes exactly one byte; a stored
zero byte renders the literal 0000, and any other stored byte b renders
the decimal string of 1900 + b. -/
theorem unpack_type_year_spec (pre post : List Nat) (b : Nat) (ctx : Ctx) :
    unpack_type_year ⟨pre ++ b :: post, pre.length⟩ ctx =
      Except.ok ((if b = 0 then quoteWrap "0000" else quoteWrap (natStr (1900 + b))),
        ⟨pre ++ b :: post, pre.length + 1⟩) := by
  have hread := read_at_append pre [b] post
  simp only [List.singleton_append, List.length_singleton] at hread
  unfold unpack_type_year
  simp only [ByteReader.uintLE, hread, Except.map, List.reverse_singleton, beNat_singleton,
    Except.bind, Bind.bind]
  split <;> rfl

-- C4: the ENUM decoder at the failing input.

/-- C4: with label sequence a, b, c the ENUM decoder reads one byte;
stored ordinal 2 decodes to b as the claim states, but stored ordinal 0
decodes to the last label c through Python negative indexing (offset
-1), not to the empty string the claim and the spec state; the empty
string is produced only by the out-of-range handler (for example stored
ordinal 4). -/
theorem unpack_type_enum_eval :
    unpack_type_enum ⟨[2], 0⟩ { baseCtx with type_code := TypeCode.enum, labels := ["a", "b", "c"] } =
        Except.ok (quoteWrap "b", ⟨[2], 1⟩) ∧
    unpack_type_enum ⟨[0], 0⟩ { baseCtx with type_code := TypeCode.enum, labels := ["a", "b", "c"] } =
        Except.ok (quoteWrap "c", ⟨[0], 1⟩) ∧
    unpack_type_enum ⟨[4], 0⟩ { baseCtx with type_code := TypeCode.enum, labels := ["a", "b", "c"] } =
        Except.ok (quoteWrap "", ⟨[4], 1⟩) ∧
    quoteWrap "c" ≠ quoteWrap "" :=
  ⟨rfl, rfl, rfl, by decide⟩

-- C6: the DATETIME2 decoder on a fixed byte sequence.

/-- C6: the 5-byte big-endian DATETIME2 encoding of 2020-01-02 03:04:05
(day in the low 5 bits and year*13+month above it within the upper
23-bit date field; hour, minute, second packed into the low 17 bits)
decodes at scale 0 to exactly that literal, consuming 5 bytes. -/
theorem unpack_type_datetime2_fixed :
    unpack_type_datetime2
        ⟨natToBytesBE 5 (((2020 * 13 + 1) * 32 + 2) * 131072 + (3 * 4096 + 4 * 64 + 5)), 0⟩
        { baseCtx with type_code := TypeCode.datetime2, length := 19 } =
      Except.ok (quoteWrap "2020-01-02 03:04:05",
        ⟨natToBytesBE 5 (((2020 * 13 + 1) * 32 + 2) * 131072 + (3 * 4096 + 4 * 64 + 5)), 5⟩) := by
  rfl

-- Concrete contexts used by witnesses.

/-- A concrete non-nullable context with a nonzero null-bit cursor. -/
def ctxCursor5 : Ctx := { baseCtx with null_bit := 5 }

/-- A concrete nullable context whose first null-map bit is set. -/
def ctxNullable : Ctx :=
  { baseCtx with flags := ⟨true, false, false, false, 0⟩, null_map := [1] }

/-- A concrete nullable context whose no-stored-default flag is set. -/
def ctxNullableNoDefault : Ctx :=
  { baseCtx with flags := ⟨true, true, false, false, 0⟩, null_map := [1] }

-- C9: type formatting and its suffix order.

/-- C9: an unsigned, non-nullable, zero-filled INT column of length 11
with no auto-increment formats exactly as int(11) unsigned zerofill NOT
NULL; and for every type code with a formatter, format_type is the
per-type fragment followed first by the NOT NULL suffix (when not
nullable) and then by the AUTO_INCREMENT suffix (when the unireg check
marks auto-increment). -/
theorem format_type_spec :
    format_type { baseCtx with
      type_code := TypeCode.long
      length := 11
      flags := ⟨false, false, false, true, 0⟩ } =
      Except.ok "int(11) unsigned zerofill NOT NULL" ∧
    ∀ ctx : Ctx, ∀ f : Ctx → String, format_dispatch ctx.type_code = some f →
      format_type ctx =
        Except.ok (f ctx ++ (if ctx.flags.MAYBE_NULL then "" else " NOT NULL") ++
          (if ctx.unireg_check = Utype.NEXT_NUMBER then " AUTO_INCREMENT" else "")) := by
  constructor
  · rfl
  · intro ctx f hf
    unfold format_type
    rw [hf]
    by_cases h1 : ctx.flags.MAYBE_NULL <;> by_cases h2 : ctx.unireg_check = Utype.NEXT_NUMBER <;>
      simp [h1, h2, String.append_empty]

-- C1: the null-bit cursor.

/-- C1 counterexample: a nullable column whose no-stored-default flag is
set returns no default without advancing the null-bit cursor, refuting
the claim that the cursor advances by exactly one for every nullable
column including those rejected by the no-default screen. -/
theorem unpack_default_null_bit_cex :
    ctxNullableNoDefault.flags.MAYBE_NULL = true ∧
    (unpack_default ⟨[], 0⟩ ctxNullableNoDefault).2.null_bit = 0 ∧
    (unpack_default ⟨[], 0⟩ ctxNullableNoDefault).1 = Except.ok (none, ⟨[], 0⟩) :=
  ⟨rfl, rfl, rfl⟩

/-- C1 (amended): the null-bit cursor advances by exactly 1 for a
nullable column that passes the initial no-default screen (no-stored-
default flag clear and unireg check not auto-increment) and whose
null-map index is in range, and by 0 otherwise - in particular columns
screened out as "no default" leave it unchanged even when nullable; the
advance is independent of the decoded outcome. -/
theorem unpack_default_null_bit (d : ByteReader) (ctx : Ctx)
    (hmap : ctx.flags.MAYBE_NULL = true → ctx.null_bit / 8 < ctx.null_map.length) :
    (unpack_default d ctx).2.null_bit =
      ctx.null_bit +
        (if ctx.flags.MAYBE_NULL = true ∧ ctx.flags.NO_DEFAULT = false ∧
            ctx.unireg_check ≠ Utype.NEXT_NUMBER then 1 else 0) := by
  unfold unpack_default
  by_cases h1 : ctx.flags.NO_DEFAULT = true ∨ ctx.unireg_check = Utype.NEXT_NUMBER
  · rw [if_pos h1]
    have hnot : ¬(ctx.flags.MAYBE_NULL = true ∧ ctx.flags.NO_DEFAULT = false ∧
        ctx.unireg_check ≠ Utype.NEXT_NUMBER) := by
      rcases h1 with h | h
      · rintro ⟨-, hb, -⟩; rw [h] at hb; exact Bool.true_eq_false.mp hb
      · rintro ⟨-, -, hn⟩; exact hn h
    rw [if_neg hnot]
    rfl
  · push_neg at h1
    obtain ⟨hnd, hnn⟩ := h1
    have hnd2 : ctx.flags.NO_DEFAULT = false := by
      cases hx : ctx.flags.NO_DEFAULT
      · rfl
      · exact absurd hx hnd
    rw [if_neg (by rintro (h | h); exacts [hnd h, hnn h])]
    by_cases h2 : ctx.flags.MAYBE_NULL = true
    · rw [if_pos h2]
      have hlt := hmap h2
      rw [List.getElem?_eq_getElem hlt]
      have hcond : ctx.flags.MAYBE_NULL = true ∧ ctx.flags.NO_DEFAULT = false ∧
          ctx.unireg_check ≠ Utype.NEXT_NUMBER := ⟨h2, hnd2, hnn⟩
      rw [if_pos hcond]
      dsimp only
      split <;> rfl
    · rw [if_neg h2]
      rw [if_neg (by rintro ⟨hx, -, -⟩; exact h2 hx)]
      rfl

/-- C1 witness: a non-nullable column through the full decode leaves the
cursor at its input value. -/
theorem unpack_default_null_bit_witness :
    (unpack_default ⟨[42, 0, 0, 0], 0⟩ ctxCursor5).2.null_bit =
      5 + (if ctxCursor5.flags.MAYBE_NULL = true ∧ ctxCursor5.flags.NO_DEFAULT = false ∧
          ctxCursor5.unireg_check ≠ Utype.NEXT_NUMBER then 1 else 0) :=
  unpack_default_null_bit ⟨[42, 0, 0, 0], 0⟩ ctxCursor5 (fun h => nomatch h)

-- C2: the NULL literal path.

/-- C2: a nullable column that reaches the null-bit check (no-stored-
default flag clear, unireg check not auto-increment), whose null-map bit
at the current cursor is set and whose unireg check is not the blob
marker, decodes to exactly the literal NULL with the default-buffer
reader unchanged and the null-bit cursor advanced by one. -/
theorem unpack_default_null_literal (d : ByteReader) (ctx : Ctx)
    (h1 : ctx.flags.NO_DEFAULT = false)
    (h2 : ctx.unireg_check ≠ Utype.NEXT_NUMBER)
    (h3 : ctx.flags.MAYBE_NULL = true)
    (h4 : ctx.null_bit / 8 < ctx.null_map.length)
    (h5 : ctx.null_map.getD (ctx.null_bit / 8) 0 &&& (1 <<< (ctx.null_bit % 8)) ≠ 0)
    (h6 : ctx.unireg_check ≠ Utype.BLOB_FIELD) :
    unpack_default d ctx =
      (Except.ok (some "NULL", d), { ctx with null_bit := ctx.null_bit + 1 }) := by
  unfold unpack_default
  rw [if_neg (by simp [h1, h2])]
  rw [if_pos h3, List.getElem?_eq_getElem h4]
  rw [List.getD_eq_getElem ctx.null_map 0 h4] at h5
  dsimp only
  rw [if_pos ⟨h5, h6⟩]

/-- C2 witness: a concrete nullable column with the first null bit set
decodes to NULL without moving the buffer reader. -/
theorem unpack_default_null_literal_witness :
    unpack_default ⟨[7], 0⟩ ctxNullable =
      (Except.ok (some "NULL", ⟨[7], 0⟩), { ctxNullable with null_bit := 1 }) :=
  unpack_default_null_literal ⟨[7], 0⟩ ctxNullable
    rfl (by decide) rfl (by decide) (by decide) (by decide)

-- C7: unimplemented-by-design defaults surface as decode errors.

/-- C7: whenever dispatch is reached (no-default screen passed, null bit
clear if nullable, unireg check not the blob marker), a blob-family or
geometry type code and the pre-4.1 DATE type always signal
not-implemented, which unpack_default surfaces as a raised lookup
failure - never a silent skip or an empty result. -/
theorem unpack_default_unimplemented (d : ByteReader) (ctx : Ctx)
    (ht : ctx.type_code = TypeCode.tiny_blob ∨ ctx.type_code = TypeCode.blob ∨
      ctx.type_code = TypeCode.medium_blob ∨ ctx.type_code = TypeCode.long_blob ∨
      ctx.type_code = TypeCode.geometry ∨ ctx.type_code = TypeCode.date)
    (h1 : ctx.flags.NO_DEFAULT = false)
    (h2 : ctx.unireg_check ≠ Utype.NEXT_NUMBER)
    (h6 : ctx.unireg_check ≠ Utype.BLOB_FIELD)
    (h7 : ctx.flags.MAYBE_NULL = true →
      ctx.null_bit / 8 < ctx.null_map.length ∧
      ctx.null_map.getD (ctx.null_bit / 8) 0 &&& (1 <<< (ctx.null_bit % 8)) = 0) :
    (unpack_default d ctx).1 =
      Except.error (Err.lookupError "Unpack method not implemented") := by
  have hrest : ∀ ctx2 : Ctx, ctx2.type_code = ctx.type_code →
      ctx2.unireg_check = ctx.unireg_check →
      unpack_default_rest d ctx2 =
        Except.error (Err.lookupError "Unpack method not implemented") := by
    intro ctx2 htc hu
    unfold unpack_default_rest
    rw [if_neg (by rw [hu]; exact h6)]
    rw [htc]
    rcases ht with h | h | h | h | h | h <;> rw [h] <;> rfl
  unfold unpack_default
  rw [if_neg (by simp [h1, h2])]
  by_cases h3 : ctx.flags.MAYBE_NULL = true
  · rw [if_pos h3]
    obtain ⟨h4, h5⟩ := h7 h3
    rw [List.getElem?_eq_getElem h4]
    dsimp only
    rw [List.getD_eq_getElem ctx.null_map 0 h4] at h5
    rw [if_neg (by rintro ⟨hbit, -⟩; exact hbit h5)]
    exact hrest _ rfl rfl
  · rw [if_neg h3]
    exact hrest _ rfl rfl

/-- C7 witness: a concrete non-nullable LONG_BLOB column surfaces the
lookup failure. -/
theorem unpack_default_unimplemented_witness :
    (unpack_default ⟨[], 0⟩ { baseCtx with type_code := TypeCode.long_blob }).1 =
      Except.error (Err.lookupError "Unpack method not implemented") :=
  unpack_default_unimplemented ⟨[], 0⟩ { baseCtx with type_code := TypeCode.long_blob }
    (by decide) rfl (by decide) (by decide) (fun h => nomatch h)

-- C5: TIMESTAMP2 byte consumption is branch-independent.

/-- C5: unpack_type_timestamp2 advances the default-buffer cursor by
exactly 4 bytes plus the fraction byte count for the column scale, and
the advanced reader is identical for every unireg_check value - the
branch controls only the rendered text. -/
theorem unpack_type_timestamp2_consumption (d : ByteReader) (ctx : Ctx)
    (hscale : ctx.length ≤ 26)
    (hlen : d.pos + 4 + ts2FracLen ctx.length ≤ d.data.length) :
    (unpack_type_timestamp2 d ctx).map (fun p => p.2) =
      Except.ok (⟨d.data, d.pos + 4 + ts2FracLen ctx.length⟩ : ByteReader) ∧
    ∀ u : Utype,
      (unpack_type_timestamp2 d { ctx with unireg_check := u }).map (fun p => p.2) =
        Except.ok (⟨d.data, d.pos + 4 + ts2FracLen ctx.length⟩ : ByteReader) := by
  have key : ∀ ctx2 : Ctx, ctx2.length = ctx.length →
      (unpack_type_timestamp2 d ctx2).map (fun p => p.2) =
        Except.ok (⟨d.data, d.pos + 4 + ts2FracLen ctx.length⟩ : ByteReader) := by
    intro ctx2 hL
    have h4 : d.pos + 4 ≤ d.data.length := by
      have := Nat.zero_le (ts2FracLen ctx.length); omega
    unfold unpack_type_timestamp2
    rw [hL]
    simp only [ByteReader.sintBE, ByteReader.uintBE, ByteReader.read, if_pos h4,
      Except.map, Except.bind, Bind.bind]
    by_cases hsc : (0 : Int) < (ctx.length : Int) - (MAX_DATETIME_WIDTH : Nat) - 1
    · rw [if_pos hsc]
      have hfrac : ts2FracLen ctx.length =
          DIGITS_TO_BYTES.getD ((ctx.length : Int) - (MAX_DATETIME_WIDTH : Nat) - 1).toNat 0 := by
        unfold ts2FracLen
        rw [if_pos hsc]
      have ht1 : 1 ≤ ((ctx.length : Int) - (MAX_DATETIME_WIDTH : Nat) - 1).toNat := by
        simp only [MAX_DATETIME_WIDTH] at hsc ⊢
        omega
      have ht6 : ((ctx.length : Int) - (MAX_DATETIME_WIDTH : Nat) - 1).toNat ≤ 6 := by
        simp only [MAX_DATETIME_WIDTH]
        omega
      rw [if_neg (show ¬ 10 ≤ ((ctx.length : Int) - (MAX_DATETIME_WIDTH : Nat) - 1).toNat by omega)]
      set t := ((ctx.length : Int) - (MAX_DATETIME_WIDTH : Nat) - 1).toNat with htdef
      rw [hfrac] at hlen ⊢
      have hnb : DIGITS_TO_BYTES.getD t 0 = 1 ∨ DIGITS_TO_BYTES.getD t 0 = 2 ∨
          DIGITS_TO_BYTES.getD t 0 = 3 := by
        interval_cases t <;> decide
      rw [if_pos hnb]
      simp only [ByteReader.uintBE, ByteReader.read, if_pos hlen, Except.map,
        Except.bind, Bind.bind]
      rfl
    · rw [if_neg hsc]
      have hfrac : ts2FracLen ctx.length = 0 := by
        unfold ts2FracLen
        rw [if_neg hsc]
      simp only [hfrac, Nat.add_zero]
      rfl
  exact ⟨key ctx rfl, fun u => key _ rfl⟩

/-- C5 witness: a concrete TIMESTAMP2 column of scale 5 consumes 4 + 3
bytes for every unireg_check value. -/
theorem unpack_type_timestamp2_consumption_witness :
    (unpack_type_timestamp2 ⟨[0, 0, 0, 0, 1, 2, 3], 0⟩
        { baseCtx with type_code := TypeCode.timestamp2, length := 25 }).map (fun p => p.2) =
      Except.ok (⟨[0, 0, 0, 0, 1, 2, 3], 0 + 4 + ts2FracLen 25⟩ : ByteReader) ∧
    ∀ u : Utype,
      (unpack_type_timestamp2 ⟨[0, 0, 0, 0, 1, 2, 3], 0⟩
          { ({ baseCtx with type_code := TypeCode.timestamp2, length := 25 } : Ctx) with
            unireg_check := u }).map (fun p => p.2) =
        Except.ok (⟨[0, 0, 0, 0, 1, 2, 3], 0 + 4 + ts2FracLen 25⟩ : ByteReader) :=
  unpack_type_timestamp2_consumption ⟨[0, 0, 0, 0, 1, 2, 3], 0⟩
    { baseCtx with type_code := TypeCode.timestamp2, length := 25 } (by decide) (by decide)

-- C8: NUL escaping of binary-charset string defaults.

theorem pyReplaceNul_eq_escape (bs : List Nat) :
    pyReplaceNulBytes bs = escapeNulSpec bs := by
  induction bs with
  | nil => rfl
  | cons b rest ih => simp [pyReplaceNulBytes, escapeNulSpec, ih, List.flatMap_cons]

/-- A concrete binary-charset context of declared length 2. -/
def ctxBin2 : Ctx := { baseCtx with length := 2 }

/-- C8 counterexample: the legacy 4.1 VAR_STRING decoder performs no NUL
escaping for a binary-charset column - the stored NUL byte reaches the
decoded literal unchanged, differing from the escaped rendering the
claim requires for all three string variants. -/
theorem unpack_type_var_string_no_escape_cex :
    (unpack_type_var_string ⟨[0, 65], 0⟩ ctxBin2).map (fun p => p.1) =
      Except.ok (quoteWrap (String.mk [Char.ofNat 0, Char.ofNat 65])) ∧
    quoteWrap (String.mk [Char.ofNat 0, Char.ofNat 65]) ≠
      quoteWrap (rstripSpace (asciiDecodeReplace (escapeNulSpec [0, 65]))) :=
  ⟨rfl, by decide⟩

/-- C8 (amended): for binary-charset columns the modern VARCHAR and the
fixed CHAR decoders escape each NUL byte of the read bytes to the
two-character backslash-zero sequence before the permissive ascii
decode (and strip trailing spaces); the legacy 4.1 VAR_STRING decoder
does not escape, passing the raw bytes to the charset decode routine. -/
theorem unpack_binary_nul_escape (pre data post : List Nat) (ctx : Ctx)
    (hbin : ctx.charset.name = "binary") (hlen : ctx.length = data.length)
    (hsmall : ctx.length < 256) :
    unpack_type_string ⟨pre ++ (data ++ post), pre.length⟩ ctx =
      Except.ok (quoteWrap (rstripSpace (asciiDecodeReplace (escapeNulSpec data))),
        ⟨pre ++ (data ++ post), pre.length + data.length⟩) ∧
    unpack_type_varchar ⟨pre ++ ([data.length] ++ (data ++ post)), pre.length⟩ ctx =
      Except.ok (quoteWrap (rstripSpace (asciiDecodeReplace (escapeNulSpec data))),
        ⟨pre ++ ([data.length] ++ (data ++ post)), pre.length + 1 + data.length⟩) := by
  constructor
  · unfold unpack_type_string
    rw [hlen]
    have hr := read_at_append pre data post
    simp only [hr, Except.bind, Bind.bind]
    rw [if_pos hbin, pyReplaceNul_eq_escape]
    rfl
  · unfold unpack_type_varchar
    rw [if_pos hsmall]
    have h1 := read_at_append pre [data.length] (data ++ post)
    simp only [List.length_singleton] at h1
    have h2 := read_at_append (pre ++ [data.length]) data post
    simp only [List.append_assoc, List.length_append, List.length_singleton] at h2
    simp only [ByteReader.uintLE, h1, Except.map, Except.bind, Bind.bind,
      List.reverse_singleton, beNat_singleton, h2]
    rw [if_pos hbin, pyReplaceNul_eq_escape]
    rfl

/-- C8 witness: concrete CHAR and VARCHAR binary-charset defaults with a
NUL byte decode to the escaped backslash-zero rendering. -/
theorem unpack_binary_nul_escape_witness :
    unpack_type_string ⟨[0, 65], 0⟩ ctxBin2 =
      Except.ok (quoteWrap (rstripSpace (asciiDecodeReplace (escapeNulSpec [0, 65]))),
        ⟨[0, 65], 2⟩) ∧
    unpack_type_varchar ⟨[2, 0, 65], 0⟩ ctxBin2 =
      Except.ok (quoteWrap (rstripSpace (asciiDecodeReplace (escapeNulSpec [0, 65]))),
        ⟨[2, 0, 65], 3⟩) :=
  unpack_binary_nul_escape [] [0, 65] [] ctxBin2 rfl rfl (by decide)

-- C3 support: properties of the decimal digit rendering.

theorem natStrAux_zero (fuel : Nat) : natStrAux fuel 0 = "" := by
  cases fuel <;> rfl

theorem string_empty_append (s : String) : "" ++ s = s := by
  cases s
  rfl

theorem natStrAux_head (fuel n : Nat) (h1 : 1 ≤ n) (h2 : n ≤ fuel) :
    ∃ c cs, (natStrAux fuel n).toList = c :: cs ∧ c ≠ '0' := by
  induction fuel generalizing n with
  | zero => omega
  | succ fuel ih =>
    rw [natStrAux]
    rw [if_neg (by omega)]
    by_cases hn : n < 10
    · rw [Nat.div_eq_of_lt hn, natStrAux_zero, string_empty_append]
      refine ⟨Nat.digitChar (n % 10), [], rfl, ?_⟩
      rw [Nat.mod_eq_of_lt hn]
      interval_cases n <;> decide
    · have hq1 : 1 ≤ n / 10 := by omega
      have hq2 : n / 10 ≤ fuel := by
        have := Nat.div_lt_self (by omega : 0 < n) (by norm_num : 1 < 10)
        omega
      obtain ⟨c, cs, hc, hne⟩ := ih (n / 10) hq1 hq2
      refine ⟨c, cs ++ [Nat.digitChar (n % 10)], ?_, hne⟩
      have : (natStrAux fuel (n / 10) ++ String.singleton (Nat.digitChar (n % 10))).toList =
          (natStrAux fuel (n / 10)).toList ++ [Nat.digitChar (n % 10)] := by
        simp [String.singleton]
      rw [this, hc]
      rfl

theorem natStr_head (n : Nat) (h1 : 1 ≤ n) :
    ∃ c cs, (natStr n).toList = c :: cs ∧ c ≠ '0' := by
  unfold natStr
  rw [if_neg (by omega)]
  exact natStrAux_head n n h1 le_rfl

/-- The integer-part cleanup of the decimal decoder is the identity on
canonical digit strings: stripping leading zeros from str(v) and
replacing an empty result by "0" returns str(v). -/
theorem lstrip_natStr (n : Nat) :
    (if lstripZero (natStr n) = "" then "0" else lstripZero (natStr n)) = natStr n := by
  by_cases h : n = 0
  · subst h
    rfl
  · obtain ⟨c, cs, hc, hne⟩ := natStr_head n (by omega)
    have hl : lstripZero (natStr n) = natStr n := by
      unfold lstripZero
      rw [hc, List.dropWhile_cons_of_neg (by simpa using hne)]
      rw [← hc]
      generalize natStr n = s
      cases s
      rfl
    rw [hl]
    rw [if_neg (by
      intro hemp
      rw [hemp] at hc
      simp at hc)]

theorem intStr_ofNat (n : Nat) : intStr (n : Int) = natStr n := by
  unfold intStr
  rw [if_neg (by exact_mod_cast Int.not_lt.mpr (Int.ofNat_nonneg n))]
  norm_num

theorem string_join_singleton (s : String) : String.join [s] = s := by
  simp [String.join]

theorem list_length_four (l : List Nat) (h : l.length = 4) :
    ∃ a b c d, l = [a, b, c, d] := by
  match l, h with
  | [a, b, c, d], _ => exact ⟨a, b, c, d, rfl⟩

theorem chunk4_four (a b c d : Nat) : chunk4 [a, b, c, d] = [[a, b, c, d]] := rfl

/-- Decoding a single padded 4-byte group without inversion renders its
big-endian value as a decimal string. -/
theorem chunkDecode_pos (data2 : List Nat) (v : Nat) (h4 : data2.length = 4)
    (hbe : beNat data2 = v) (hv : v < 2 ^ 31) :
    String.join (((chunk4 data2).map (fun g => toSigned 4 (beNat g))).map
      (fun i => intStr i)) = natStr v := by
  obtain ⟨a, b, c, d, rfl⟩ := list_length_four data2 h4
  rw [chunk4_four]
  simp only [List.map_cons, List.map_nil]
  rw [hbe]
  unfold toSigned
  rw [if_pos (by exact_mod_cast hv)]
  rw [string_join_singleton, intStr_ofNat]

/-- Decoding a single padded 4-byte group with inversion: a group whose
big-endian value is the 32-bit complement of v renders v. -/
theorem chunkDecode_neg (data2 : List Nat) (v : Nat) (h4 : data2.length = 4)
    (hbe : beNat data2 = 2 ^ 32 - 1 - v) (hv : v < 2 ^ 31) :
    String.join ((((chunk4 data2).map (fun g => toSigned 4 (beNat g))).map
      (fun i => -i - 1)).map (fun i => intStr i)) = natStr v := by
  obtain ⟨a, b, c, d, rfl⟩ := list_length_four data2 h4
  rw [chunk4_four]
  simp only [List.map_cons, List.map_nil]
  rw [hbe]
  unfold toSigned
  rw [if_neg (by
    push_cast
    omega)]
  have hstep : (((2 ^ 32 - 1 - v : Nat) : Int) - 2 ^ (8 * 4)) = -1 - (v : Int) := by
    omega
  rw [hstep]
  have : (-(-1 - (v : Int)) - 1) = (v : Int) := by ring
  rw [this]
  rw [string_join_singleton, intStr_ofNat]

/-- Decoding the positive single-group byte encoding of v (at most one
4-byte group) renders the decimal string of v. -/
theorem decode_group_pos (k v : Nat) (hk1 : 1 ≤ k) (hk4 : k ≤ 4)
    (hv : v < 256 ^ k) (hv31 : v < 2 ^ 31) :
    _decode_decimal (natToBytesBE k v) false = natStr v := by
  have hlen := natToBytesBE_length k v
  by_cases hk : k = 4
  · subst hk
    unfold _decode_decimal
    simp only [hlen]
    norm_num
    exact chunkDecode_pos _ v hlen (beNat_natToBytesBE_of_lt 4 v hv) hv31
  · have hmod : k % 4 = k := Nat.mod_eq_of_lt (by omega)
    have hz : k - k % 4 = 0 := by omega
    unfold _decode_decimal
    simp only [hlen, hmod, hz, List.take_zero, List.drop_zero, List.nil_append,
      if_pos (show k ≠ 0 by omega)]
    norm_num
    simp only [← List.map_map]
    refine chunkDecode_pos _ v ?_ ?_ hv31
    · simp only [List.length_append, List.length_replicate, hlen]
      omega
    · rw [beNat_replicate_zero, beNat_natToBytesBE_of_lt k v hv]

/-- Decoding the complemented single-group byte encoding of v with
inversion renders the decimal string of v. -/
theorem decode_group_neg (k v : Nat) (hk1 : 1 ≤ k) (hk4 : k ≤ 4)
    (hv : v < 256 ^ k) (hv31 : v < 2 ^ 31) :
    _decode_decimal ((natToBytesBE k v).map (fun b => 255 - b)) true = natStr v := by
  have hlen : ((natToBytesBE k v).map (fun b => 255 - b)).length = k := by
    rw [List.length_map, natToBytesBE_length]
  have hbeA := beNat_natToBytesBE_of_lt k v hv
  by_cases hk : k = 4
  · subst hk
    unfold _decode_decimal
    simp only [hlen]
    norm_num
    refine chunkDecode_neg _ v hlen ?_ hv31
    rw [beNat_map_compl _ (natToBytesBE_lt 4 v), natToBytesBE_length, hbeA]
    norm_num
  · have hmod : k % 4 = k := Nat.mod_eq_of_lt (by omega)
    have hz : k - k % 4 = 0 := by omega
    unfold _decode_decimal
    simp only [hlen, hmod, hz, List.take_zero, List.drop_zero, List.nil_append,
      if_pos (show k ≠ 0 by omega)]
    norm_num
    simp only [← List.map_map]
    have hconv : List.replicate (4 - k) 255 ++ (natToBytesBE k v).map (fun b => 255 - b) =
        (List.replicate (4 - k) 0 ++ natToBytesBE k v).map (fun b => 255 - b) := by
      rw [List.map_append, List.map_replicate]
    rw [hconv]
    refine chunkDecode_neg _ v ?_ ?_ hv31
    · simp only [List.length_map, List.length_append, List.length_replicate,
        natToBytesBE_length]
      omega
    · rw [beNat_map_compl _ (by
        intro b hb
        rcases List.mem_append.mp hb with hb | hb
        · have := List.eq_of_mem_replicate hb
          omega
        · exact natToBytesBE_lt k v b hb)]
      rw [List.length_append, List.length_replicate, natToBytesBE_length,
        beNat_replicate_zero, hbeA]
      have : 4 - k + k = 4 := by omega
      rw [this]
      norm_num

/-- The byte-width facts for a single group of d digits (1 ≤ d ≤ 9): the
width is 1..4 bytes, holds 10^d values, keeps the top bit of the leading
byte clear, and every group value fits a signed 32-bit word. -/
theorem byteLen_facts (d : Nat) (h1 : 1 ≤ d) (h9 : d ≤ 9) :
    1 ≤ byteLenD d ∧ byteLenD d ≤ 4 ∧ 10 ^ d ≤ 256 ^ byteLenD d ∧
      10 ^ d ≤ 128 * 256 ^ (byteLenD d - 1) ∧ 10 ^ d ≤ 2 ^ 31 := by
  interval_cases d <;> refine ⟨?_, ?_, ?_, ?_, ?_⟩ <;> decide

theorem byteLenD_zero : byteLenD 0 = 0 := rfl

theorem byteLenD_eq_zero_iff (d : Nat) (h9 : d ≤ 9) : byteLenD d = 0 ↔ d = 0 := by
  interval_cases d <;> decide

/-- For a part of at most 9 digits the spec-side integer group encoding
is a single big-endian group of table width. -/
theorem intGroupBytes_small (d ip : Nat) (hd : d ≤ 9) (hip : ip < 10 ^ d) :
    intGroupBytes d ip = natToBytesBE (byteLenD d) ip := by
  interval_cases d
  · rfl
  case «9» =>
    simp only [intGroupBytes, fullGroups, byteLenD, DIGITS_TO_BYTES]
    norm_num at hip ⊢
    congr 1
    omega
  all_goals
    simp only [intGroupBytes, fullGroups, byteLenD]
    norm_num [Nat.mod_eq_of_lt hip]

/-- For a part of at most 9 digits the spec-side fractional group
encoding is a single big-endian group of table width. -/
theorem fracGroupBytes_small (s fp : Nat) (hs : s ≤ 9) (hfp : fp < 10 ^ s) :
    fracGroupBytes s fp = natToBytesBE (byteLenD s) fp := by
  interval_cases s
  · rfl
  case «9» =>
    simp only [fracGroupBytes, fullGroups, byteLenD, DIGITS_TO_BYTES]
    norm_num
  all_goals
    simp only [fracGroupBytes, fullGroups, byteLenD]
    norm_num at hfp ⊢
    congr 1
    omega

/-- The leading byte of a big-endian encoding whose value keeps the top
bit clear. -/
theorem natToBytesBE_head (k n : Nat) (hk : 1 ≤ k) (hn : n < 128 * 256 ^ (k - 1)) :
    ∃ h t, natToBytesBE k n = h :: t ∧ h < 128 := by
  induction k generalizing n with
  | zero => omega
  | succ k ih =>
    cases k with
    | zero =>
      refine ⟨n % 256, [], rfl, ?_⟩
      simp at hn
      omega
    | succ k0 =>
      have hrec : n / 256 < 128 * 256 ^ (k0 + 1 - 1) := by
        have he : k0 + 1 + 1 - 1 = (k0 + 1 - 1) + 1 := by omega
        rw [he, pow_succ, ← Nat.mul_assoc] at hn
        exact Nat.div_lt_of_lt_mul (by omega)
      obtain ⟨h, t, hht, hlt⟩ := ih (n / 256) (by omega) hrec
      refine ⟨h, t ++ [n % 256], ?_, hlt⟩
      rw [natToBytesBE, hht]
      rfl

theorem read_all (l : List Nat) :
    ByteReader.read ⟨l, 0⟩ l.length = Except.ok (l, ⟨l, l.length⟩) := by
  unfold ByteReader.read
  simp

theorem intercalate_pair (a b : String) : String.intercalate "." [a, b] = a ++ "." ++ b := by
  simp [String.intercalate, String.intercalate.go]

theorem intercalate_single (a : String) : String.intercalate "." [a] = a := by
  simp [String.intercalate, String.intercalate.go]

theorem read_all_of_length (l : List Nat) (n : Nat) (h : l.length = n) :
    ByteReader.read ⟨l, 0⟩ n = Except.ok (l, ⟨l, n⟩) := by
  subst h
  exact read_all l


/-- C3 (amended): for every precision/scale pair whose integer and
fractional digit counts each fit one 9-digit group (P - S at most 9 and
S at most 9, which includes counts that are not multiples of 9 and the
pair precision 18 / scale 9 crossing exactly two groups) and for both
signs, encoding a signed decimal value into the NEWDECIMAL big-endian
4-byte-group format (partial groups high-side zero-extended when
positive, all-1-extended when negative; first byte top bit flipped;
negative bytes one-complemented) and decoding it with
unpack_type_newdecimal reproduces the original digit string exactly.
Pairs whose integer or fractional part spans more than one group are
excluded: the decoder mis-groups and mis-joins multiple groups (see the
counterexample). -/
theorem newdecimal_roundtrip (P S : Nat) (neg : Bool) (ip fp : Nat)
    (hP : 1 ≤ P) (hSP : S ≤ P) (hd9 : P - S ≤ 9) (hS9 : S ≤ 9)
    (hip : ip < 10 ^ (P - S)) (hfp : fp < 10 ^ S) :
    unpack_type_newdecimal ⟨encodeNewdecimalSpec P S neg ip fp, 0⟩
        { baseCtx with
          type_code := TypeCode.newdecimal
          length := P + 1 + (if S = 0 then 0 else 1)
          flags := ⟨false, false, false, false, S⟩ } =
      Except.ok (pyRepr ((if neg then "-" else "") ++ natStr ip ++
          (if S = 0 then "" else "." ++ zfillPy S (natStr fp))),
        ⟨encodeNewdecimalSpec P S neg ip fp, byteLenD (P - S) + byteLenD S⟩) := by
  -- abbreviations for the two stored parts
  have hA : intGroupBytes (P - S) ip = natToBytesBE (byteLenD (P - S)) ip :=
    intGroupBytes_small _ _ hd9 hip
  have hB : fracGroupBytes S fp = natToBytesBE (byteLenD S) fp :=
    fracGroupBytes_small _ _ hS9 hfp
  have hAlen := natToBytesBE_length (byteLenD (P - S)) ip
  have hBlen := natToBytesBE_length (byteLenD S) fp
  -- the head byte of the raw (pre-complement) encoding keeps its top bit clear
  obtain ⟨h, t, hraw, hh128⟩ :
      ∃ h t, natToBytesBE (byteLenD (P - S)) ip ++ natToBytesBE (byteLenD S) fp =
        h :: t ∧ h < 128 := by
    by_cases hd0 : P - S = 0
    · have hS1 : 1 ≤ S := by omega
      have hBf := byteLen_facts S hS1 hS9
      obtain ⟨h, t, hh, hlt⟩ := natToBytesBE_head (byteLenD S) fp hBf.1
        (lt_of_lt_of_le hfp hBf.2.2.2.1)
      exact ⟨h, t, by rw [hd0, byteLenD_zero]; simpa [natToBytesBE] using hh, hlt⟩
    · have hAf := byteLen_facts (P - S) (by omega) hd9
      obtain ⟨h, t, hh, hlt⟩ := natToBytesBE_head (byteLenD (P - S)) ip hAf.1
        (lt_of_lt_of_le hip hAf.2.2.2.1)
      exact ⟨h, t ++ natToBytesBE (byteLenD S) fp, by rw [hh]; rfl, hlt⟩
  have hh256 : h < 256 := by omega
  -- the stored encoding in explicit head-tail form
  have henc : encodeNewdecimalSpec P S neg ip fp =
      (if neg then ((255 - h) ^^^ 128) :: t.map (fun b => 255 - b)
       else (h ^^^ 128) :: t) := by
    unfold encodeNewdecimalSpec
    rw [hA, hB, hraw]
    cases neg
    · rfl
    · rfl
  have hlent : t.length + 1 = byteLenD (P - S) + byteLenD S := by
    have := congrArg List.length hraw
    simp only [List.length_append, hAlen, hBlen, List.length_cons] at this
    omega
  by_cases hS0 : S = 0
  · subst hS0
    simp only [Nat.sub_zero] at hd9 hip hraw hlent henc ⊢
    have hbl := byteLen_facts P hP hd9
    have hD0 : (DIGITS_TO_BYTES[(0 : Nat)]?).getD 0 = 0 := rfl
    have hILP : P / 9 * 4 + (DIGITS_TO_BYTES[P % 9]?).getD 0 = byteLenD P := by
      rw [byteLenD, List.getD_eq_getElem?_getD]
    have hcond : P / 9 = 0 → ¬(DIGITS_TO_BYTES[P % 9]?).getD 0 = 0 := by
      intro h0 hz
      have : byteLenD P = 0 := by rw [← hILP, h0, hz]
      omega
    rw [byteLenD_zero, Nat.add_zero] at hlent
    unfold unpack_type_newdecimal
    dsimp only [f_decimals]
    norm_num [hD0, hILP]
    rw [henc]
    cases neg
    · simp only [Bool.false_eq_true, if_false]
      have hxor : h ^^^ 128 = h + 128 := xor128_of_lt h hh128
      have hrd := read_all_of_length ((h ^^^ 128) :: t) (byteLenD P) (by
        simp only [List.length_cons]
        omega)
      rw [hrd]
      simp only [Except.bind, Bind.bind]
      have hsign : ((h ^^^ 128) &&& 128 = 0) = False := by
        rw [hxor, and128_eq (h + 128) (by omega), if_pos (by omega : 128 ≤ h + 128)]
        simp
      have hback : (h ^^^ 128) ^^^ 128 = h := by
        rw [hxor, xor128_of_ge (h + 128) (by omega) (by omega)]
        omega
      simp only [hsign, if_false, hback]
      rw [if_neg (by omega : ¬ byteLenD P = 0)]
      rw [show (("" : String) == "-") = false from rfl]
      rw [Nat.sub_zero] at hAlen
      rw [← hraw, List.take_left' hAlen]
      rw [decode_group_pos (byteLenD P) ip hbl.1 hbl.2.1
        (lt_of_lt_of_le hip hbl.2.2.1) (lt_of_lt_of_le hip hbl.2.2.2.2)]
      rw [lstrip_natStr ip]
      rw [string_empty_append, intercalate_single]
      simp only [byteLenD_zero, Nat.add_zero]
      rfl
    · simp only [eq_self_iff_true, if_true]
      have hxor : (255 - h) ^^^ 128 = 127 - h := by
        rw [xor128_of_ge (255 - h) (by omega) (by omega)]
        omega
      have hrd := read_all_of_length (((255 - h) ^^^ 128) :: t.map (fun b => 255 - b))
        (byteLenD P) (by
          simp only [List.length_cons, List.length_map]
          omega)
      rw [hrd]
      simp only [Except.bind, Bind.bind]
      have hsign : (((255 - h) ^^^ 128) &&& 128 = 0) = True := by
        rw [hxor, and128_eq (127 - h) (by omega), if_neg (by omega)]
        simp
      have hback : ((255 - h) ^^^ 128) ^^^ 128 = 255 - h := by
        rw [hxor, xor128_of_lt (127 - h) (by omega)]
        omega
      simp only [hsign, if_true, hback]
      rw [if_neg (by omega : ¬ byteLenD P = 0)]
      rw [show (("-" : String) == "-") = true from rfl]
      rw [Nat.sub_zero] at hAlen
      rw [show ((255 - h) :: t.map (fun b => 255 - b)) =
        (h :: t).map (fun b => 255 - b) from rfl]
      rw [← hraw, List.map_append]
      have hAlen2 : ((natToBytesBE (byteLenD P) ip).map (fun b => 255 - b)).length =
          byteLenD P := by
        rw [List.length_map, hAlen]
      rw [List.take_left' hAlen2]
      rw [decode_group_neg (byteLenD P) ip hbl.1 hbl.2.1
        (lt_of_lt_of_le hip hbl.2.2.1) (lt_of_lt_of_le hip hbl.2.2.2.2)]
      rw [lstrip_natStr ip]
      rw [intercalate_single]
      simp only [byteLenD_zero, Nat.add_zero]
      rfl
  · have hS1 : 1 ≤ S := by omega
    have hblS := byteLen_facts S hS1 hS9
    have hILS : S / 9 * 4 + (DIGITS_TO_BYTES[S % 9]?).getD 0 = byteLenD S := by
      rw [byteLenD, List.getD_eq_getElem?_getD]
    have hILd : (P - S) / 9 * 4 + (DIGITS_TO_BYTES[(P - S) % 9]?).getD 0 =
        byteLenD (P - S) := by
      rw [byteLenD, List.getD_eq_getElem?_getD]
    unfold unpack_type_newdecimal
    dsimp only [f_decimals]
    norm_num [hS0, hILS, hILd]
    rw [henc]
    have hfS : ¬ byteLenD S = 0 := by omega
    simp only [if_neg hfS]
    by_cases hd0 : P - S = 0
    · -- no integer digits: the stored bytes are the fractional groups
      simp only [if_pos (show byteLenD (P - S) = 0 by rw [hd0, byteLenD_zero])]
      have hip0 : ip = 0 := by
        rw [hd0] at hip
        simpa using hip
      subst hip0
      have hBraw : natToBytesBE (byteLenD S) fp = h :: t := by
        rw [hd0, byteLenD_zero] at hraw
        simpa [natToBytesBE] using hraw
      have hidx : t.length + 1 - byteLenD S = 0 := by
        rw [hd0, byteLenD_zero] at hlent
        omega
      cases neg
      · simp only [Bool.false_eq_true, if_false]
        have hxor : h ^^^ 128 = h + 128 := xor128_of_lt h hh128
        have hrd := read_all_of_length ((h ^^^ 128) :: t)
          (byteLenD (P - S) + byteLenD S) (by
            simp only [List.length_cons]
            omega)
        rw [hrd]
        simp only [Except.bind, Bind.bind]
        have hsign : ((h ^^^ 128) &&& 128 = 0) = False := by
          rw [hxor, and128_eq (h + 128) (by omega), if_pos (by omega : 128 ≤ h + 128)]
          simp
        have hback : (h ^^^ 128) ^^^ 128 = h := by
          rw [hxor, xor128_of_ge (h + 128) (by omega) (by omega)]
          omega
        simp only [hsign, if_false, hback]
        rw [show (("" : String) == "-") = false from rfl]
        rw [hidx, List.drop_zero, ← hBraw]
        rw [decode_group_pos (byteLenD S) fp hblS.1 hblS.2.1
          (lt_of_lt_of_le hfp hblS.2.2.1) (lt_of_lt_of_le hfp hblS.2.2.2.2)]
        simp only [List.singleton_append]
        rw [intercalate_pair, string_empty_append]
        rw [show natStr 0 = "0" from rfl, string_empty_append, String.append_assoc]
        rfl
      · simp only [eq_self_iff_true, if_true]
        have hxor : (255 - h) ^^^ 128 = 127 - h := by
          rw [xor128_of_ge (255 - h) (by omega) (by omega)]
          omega
        have hrd := read_all_of_length (((255 - h) ^^^ 128) :: t.map (fun b => 255 - b))
          (byteLenD (P - S) + byteLenD S) (by
            simp only [List.length_cons, List.length_map]
            omega)
        rw [hrd]
        simp only [Except.bind, Bind.bind]
        have hsign : (((255 - h) ^^^ 128) &&& 128 = 0) = True := by
          rw [hxor, and128_eq (127 - h) (by omega), if_neg (by omega)]
          simp
        have hback : ((255 - h) ^^^ 128) ^^^ 128 = 255 - h := by
          rw [hxor, xor128_of_lt (127 - h) (by omega)]
          omega
        simp only [hsign, if_true, hback]
        rw [show (("-" : String) == "-") = true from rfl]
        rw [show ((255 - h) :: t.map (fun b => 255 - b)) =
          (h :: t).map (fun b => 255 - b) from rfl]
        simp only [List.length_map]
        rw [hidx, List.drop_zero, ← hBraw]
        rw [decode_group_neg (byteLenD S) fp hblS.1 hblS.2.1
          (lt_of_lt_of_le hfp hblS.2.2.1) (lt_of_lt_of_le hfp hblS.2.2.2.2)]
        simp only [List.singleton_append]
        rw [intercalate_pair]
        rw [show natStr 0 = "0" from rfl, String.append_assoc]
        rfl
    · -- both parts present
      have hbld := byteLen_facts (P - S) (by omega) hd9
      simp only [if_neg (show ¬ byteLenD (P - S) = 0 by omega)]
      have hidx : t.length + 1 - byteLenD S = byteLenD (P - S) := by omega
      cases neg
      · simp only [Bool.false_eq_true, if_false]
        have hxor : h ^^^ 128 = h + 128 := xor128_of_lt h hh128
        have hrd := read_all_of_length ((h ^^^ 128) :: t)
          (byteLenD (P - S) + byteLenD S) (by
            simp only [List.length_cons]
            omega)
        rw [hrd]
        simp only [Except.bind, Bind.bind]
        have hsign : ((h ^^^ 128) &&& 128 = 0) = False := by
          rw [hxor, and128_eq (h + 128) (by omega), if_pos (by omega : 128 ≤ h + 128)]
          simp
        have hback : (h ^^^ 128) ^^^ 128 = h := by
          rw [hxor, xor128_of_ge (h + 128) (by omega) (by omega)]
          omega
        simp only [hsign, if_false, hback]
        rw [show (("" : String) == "-") = false from rfl]
        rw [hidx, ← hraw, List.take_left' hAlen, List.drop_left' hAlen]
        rw [decode_group_pos (byteLenD (P - S)) ip hbld.1 hbld.2.1
          (lt_of_lt_of_le hip hbld.2.2.1) (lt_of_lt_of_le hip hbld.2.2.2.2)]
        rw [decode_group_pos (byteLenD S) fp hblS.1 hblS.2.1
          (lt_of_lt_of_le hfp hblS.2.2.1) (lt_of_lt_of_le hfp hblS.2.2.2.2)]
        rw [lstrip_natStr ip]
        simp only [List.singleton_append]
        rw [intercalate_pair, string_empty_append, String.append_assoc]
        rfl
      · simp only [eq_self_iff_true, if_true]
        have hxor : (255 - h) ^^^ 128 = 127 - h := by
          rw [xor128_of_ge (255 - h) (by omega) (by omega)]
          omega
        have hrd := read_all_of_length (((255 - h) ^^^ 128) :: t.map (fun b => 255 - b))
          (byteLenD (P - S) + byteLenD S) (by
            simp only [List.length_cons, List.length_map]
            omega)
        rw [hrd]
        simp only [Except.bind, Bind.bind]
        have hsign : (((255 - h) ^^^ 128) &&& 128 = 0) = True := by
          rw [hxor, and128_eq (127 - h) (by omega), if_neg (by omega)]
          simp
        have hback : ((255 - h) ^^^ 128) ^^^ 128 = 255 - h := by
          rw [hxor, xor128_of_lt (127 - h) (by omega)]
          omega
        simp only [hsign, if_true, hback]
        rw [show (("-" : String) == "-") = true from rfl]
        rw [show ((255 - h) :: t.map (fun b => 255 - b)) =
          (h :: t).map (fun b => 255 - b) from rfl]
        simp only [List.length_map]
        rw [hidx, ← hraw, List.map_append]
        have hAlen2 : ((natToBytesBE (byteLenD (P - S)) ip).map (fun b => 255 - b)).length =
            byteLenD (P - S) := by
          rw [List.length_map, hAlen]
        rw [List.take_left' hAlen2, List.drop_left' hAlen2]
        rw [decode_group_neg (byteLenD (P - S)) ip hbld.1 hbld.2.1
          (lt_of_lt_of_le hip hbld.2.2.1) (lt_of_lt_of_le hip hbld.2.2.2.2)]
        rw [decode_group_neg (byteLenD S) fp hblS.1 hblS.2.1
          (lt_of_lt_of_le hfp hblS.2.2.1) (lt_of_lt_of_le hfp hblS.2.2.2.2)]
        rw [lstrip_natStr ip]
        simp only [List.singleton_append]
        rw [intercalate_pair, String.append_assoc]
        rfl

/-- C3 witness: precision 18 scale 9 (two full groups), negative sign,
concrete digits round-trip exactly. -/
theorem newdecimal_roundtrip_witness :
    unpack_type_newdecimal ⟨encodeNewdecimalSpec 18 9 true 123456789 987654321, 0⟩
        { baseCtx with
          type_code := TypeCode.newdecimal
          length := 18 + 1 + (if 9 = 0 then 0 else 1)
          flags := ⟨false, false, false, false, 9⟩ } =
      Except.ok (pyRepr ((if true then "-" else "") ++ natStr 123456789 ++
          (if 9 = 0 then "" else "." ++ zfillPy 9 (natStr 987654321))),
        ⟨encodeNewdecimalSpec 18 9 true 123456789 987654321, byteLenD (18 - 9) + byteLenD 9⟩) :=
  newdecimal_roundtrip 18 9 true 123456789 987654321 (by decide) (by decide) (by decide)
    (by decide) (by decide) (by decide)

/-- C3 counterexample: an integer part of ten digits (precision 10,
scale 0) spans two groups; the decoder groups the partial group on the
wrong side and joins group renderings without zero padding, so decoding
the spec-side encoding of 1000000002 yields the digit string 167772162
instead - the round trip fails for pairs spanning a 9-digit group
boundary within one part. -/
theorem newdecimal_roundtrip_cex :
    (unpack_type_newdecimal ⟨encodeNewdecimalSpec 10 0 false 1000000002 0, 0⟩
        { baseCtx with
          type_code := TypeCode.newdecimal
          length := 11
          flags := ⟨false, false, false, false, 0⟩ }).map (fun p => p.1) =
      Except.ok (pyRepr "167772162") ∧
    pyRepr "167772162" ≠ pyRepr "1000000002" :=
  ⟨rfl, by decide⟩
